/-
  Verification of the ad relevance-scoring and ranking pipeline
  (ad_service repository) against its natural-language specification.

  Shallow embedding conventions:
  * Python floats are modelled as exact rationals (ℚ); float rounding is not
    load-bearing for any property verified here.
  * Python strings are Lean `String`s; character-level operations (lowercase,
    substring containment, slicing, splitting) are implemented over `String.data`
    so that every definition is executable and kernel-reducible.
  * Python dicts whose insertion order matters are association lists
    (`List (String × β)`); assignment updates in place, new keys append at the
    end, exactly as CPython dict semantics since 3.7.
  * `try/except` blocks that swallow exceptions become total functions whose
    input is a sum type distinguishing the failure outcome.
-/
import Mathlib

/- Restore kernel-style reducibility for the four rational-arithmetic
   primitives, so that concrete runs of the embedded pipeline can be
   evaluated by `decide`. -/
attribute [local semireducible] Rat.mul Rat.add Rat.inv Rat.sub Rat.ofScientific

/-! # Utility layer: Python string and dict primitives -/
/-- Python `str.lower()` (ASCII case folding suffices for the repository's data). -/
def pyLower (s : String) : String := String.mk (s.data.map Char.toLower)

/-- Whether `pre` is a prefix of `l` (`list` version, auxiliary for substring tests). -/
def listPrefix : List Char → List Char → Bool
  | [], _ => true
  | _ :: _, [] => false
  | a :: as, b :: bs => a = b && listPrefix as bs

/-- Whether `needle` occurs contiguously inside `hay`. -/
def listSub (needle : List Char) : List Char → Bool
  | [] => listPrefix needle []
  | c :: rest => listPrefix needle (c :: rest) || listSub needle rest

/-- Python `needle in hay` on strings: substring containment. -/
def strIn (needle hay : String) : Bool := listSub needle.data hay.data

/-- First `n` characters of a string: Python `s[:n]`. -/
def strTake (s : String) (n : Nat) : String := String.mk (s.data.take n)

/-- Python `str.strip()`: drop leading and trailing whitespace. -/
def pyStrip (s : String) : String :=
  String.mk ((((s.data.dropWhile Char.isWhitespace).reverse).dropWhile Char.isWhitespace).reverse)

/-- Python `str.split()` (no argument): split on whitespace runs, no empty pieces. -/
def pySplitWsAux : List Char → List Char → List String
  | [], acc => if acc.isEmpty then [] else [String.mk acc.reverse]
  | c :: rest, acc =>
    if c.isWhitespace then
      if acc.isEmpty then pySplitWsAux rest []
      else String.mk acc.reverse :: pySplitWsAux rest []
    else pySplitWsAux rest (c :: acc)

/-- Python `str.split()` on a string. -/
def pySplitWs (s : String) : List String := pySplitWsAux s.data []

/-- Deduplicate keeping first occurrences: models building a Python `set`
    where only cardinality and membership are consumed downstream. -/
def dedup : List String → List String
  | [] => []
  | x :: xs => if (dedup xs).contains x then dedup xs else x :: dedup xs

/-- Association-list lookup (Python `d.get(k)` / `k in d`). -/
def lookupA {β : Type} : List (String × β) → String → Option β
  | [], _ => none
  | (k', v) :: rest, k => if k' = k then some v else lookupA rest k

/-- Python `d.get(k, default)`. -/
def lookupD {β : Type} (l : List (String × β)) (k : String) (d : β) : β :=
  (lookupA l k).getD d

/-- Python `d[k] = v`: update in place if present, else append (insertion order). -/
def setA {β : Type} : List (String × β) → String → β → List (String × β)
  | [], k, v => [(k, v)]
  | (k', v') :: rest, k, v =>
    if k' = k then (k, v) :: rest else (k', v') :: setA rest k v

/-- Python negative-index slice `l[-n:]` (for `n = 0` Python yields the whole list). -/
def pySliceLast {α : Type} (l : List α) (n : Nat) : List α :=
  if n = 0 then l else l.drop (l.length - n)

/-- Python `l[-n:]` for the history windows that only read message contents. -/
def pyTakeLastMsgs {α : Type} (l : List α) (n : Nat) : List α := pySliceLast l n

/-- Python `min(a, b)` on floats, written so that the kernel can evaluate it. -/
def pyMin (a b : ℚ) : ℚ := if a ≤ b then a else b

/-- Python `max(a, b)` on floats, written so that the kernel can evaluate it. -/
def pyMax (a b : ℚ) : ℚ := if a ≤ b then b else a

/-- Python `min(a, b)` on ints, written so that the kernel can evaluate it. -/
def natMin (a b : Nat) : Nat := if a ≤ b then a else b

/-- Python `max(a, b)` on ints, written so that the kernel can evaluate it. -/
def natMax (a b : Nat) : Nat := if a ≤ b then b else a

/-- Python `max(iterable)` on a nonempty list of rationals (callers guard emptiness;
    the empty case returns 0, matching the guarded call sites). -/
def maxListQ : List ℚ → ℚ
  | [] => 0
  | x :: xs => xs.foldl pyMax x

/-- Stable descending insertion by a score projection: a later element is
    placed after every earlier element of greater-or-equal score, which is
    exactly what Python's stable `sort(key=..., reverse=True)` produces. -/
def insertDescBy {α : Type} (score : α → ℚ) (m : α) : List α → List α
  | [] => [m]
  | x :: xs =>
    if score m ≤ score x then x :: insertDescBy score m xs
    else m :: x :: xs

/-- Stable descending sort by a score projection (Python
    `list.sort(key=..., reverse=True)` / `sorted(..., reverse=True)`). -/
def sortDescBy {α : Type} (score : α → ℚ) (l : List α) : List α :=
  l.foldl (fun acc m => insertDescBy score m acc) []

namespace AdMatcher

/-! # AdMatcher (src/ad_service/ad_matching/ad_matcher.py)

The matcher scores every active ad against the analysis of the recent
conversation window, applies a relevance threshold and per-conversation
frequency capping, sorts by relevance (descending, stable) and returns the
top `max_ads_per_request` ads. -/
/-- A conversation message; `content` is `none` when the dict lacks a
    `'content'` key (matching `'content' in msg` checks). -/
structure Message where
  role : String
  content : Option String
deriving DecidableEq, Repr

/-- The ad record fields consumed by `AdMatcher` (`ad["id"]`, `keywords`,
    `categories`, `negative_keywords`; absent list fields default to `[]`
    via `ad.get(..., [])`, so they are plain lists here). -/
structure Ad where
  id : String
  keywords : List String
  categories : List String
  negativeKeywords : List String
deriving DecidableEq, Repr

/-- The slice of `QueryAnalyzer.analyze_conversation`'s result dict read by
    `_calculate_relevance`: token/entity/topic lists and the per-ad
    `semantic_score` mapping. -/
structure Analysis where
  tokens : List String
  entities : List String
  topics : List String
  semanticScore : List (String × ℚ)
deriving DecidableEq, Repr

/-- Per-conversation entry of `self.conversation_ad_history`. -/
structure FreqRecord where
  lastMessageCount : Nat
  shownAds : List (String × Nat)
  lastShownAd : Option String
deriving DecidableEq, Repr

/-- `self.conversation_ad_history`: conversation id → frequency record. -/
abbrev FreqState := List (String × FreqRecord)

/-- Configuration slice of `AdMatcher` (`relevance_threshold`,
    `max_ads_per_request`, `context_window_size`). -/
structure Config where
  relevanceThreshold : ℚ
  maxAdsPerRequest : Nat
  contextWindowSize : Nat
deriving DecidableEq, Repr

/-- The defaults used when the config file cannot be loaded. -/
def defaultConfig : Config := ⟨7/10, 3, 10⟩

/-- The conversation id computed by `_get_conversation_id`: `str(hash(...))`
    of the first 50 characters of the first message's content, or the sentinel
    `"unknown_conversation"`. Python's opaque `hash` is a parameter
    `h : String → Int`; `str(...)` of it is `toString`. -/
def convId (h : String → Int) (hist : List Message) : String :=
  match hist with
  | [] => "unknown_conversation"
  | m :: _ =>
    match m.content with
    | some c => toString (h (strTake c 50))
    | none => "unknown_conversation"

/-- The state initialisation performed inside `_get_conversation_id`: if the
    id is not yet tracked, create a fresh record (`last_message_count`,
    empty `shown_ads`, no `last_shown_ad` key). The sentinel branch returns
    before this block, so it never initialises. -/
def ensureConv (h : String → Int) (hist : List Message) (st : FreqState) : FreqState :=
  match hist with
  | [] => st
  | m :: _ =>
    match m.content with
    | none => st
    | some _ =>
      let cid := convId h hist
      match lookupA st cid with
      | some _ => st
      | none => setA st cid ⟨hist.length, [], none⟩

/-- `_calculate_relevance`: weighted combination of keyword, category and
    semantic sub-scores, multiplied by the negative-keyword veto factor. -/
def calculateRelevance (ad : Ad) (analysis : Analysis) : ℚ :=
  let adKeywords := ad.keywords.map pyLower
  let adCategories := ad.categories.map pyLower
  let tokens := analysis.tokens
  let entities := analysis.entities
  let topics := analysis.topics
  let tokenMatches := (tokens.filter (fun t => adKeywords.contains (pyLower t))).length
  let entityMatches := (entities.filter (fun e => adKeywords.contains (pyLower e))).length
  let totalMatches := tokenMatches + entityMatches
  let maxKeywords := natMax 1 (natMin adKeywords.length 10)
  let keywordScore : ℚ := pyMin 1 ((totalMatches : ℚ) / (maxKeywords : ℚ))
  let categoryMatches := (topics.filter (fun t => adCategories.contains (pyLower t))).length
  let maxCategories := natMax 1 (natMin adCategories.length 5)
  let categoryScore : ℚ := pyMin 1 ((categoryMatches : ℚ) / (maxCategories : ℚ))
  let semanticScore : ℚ := lookupD analysis.semanticScore ad.id 0
  let relevantTerms := tokens ++ entities
  let negativeKeywordScore : ℚ :=
    if ad.negativeKeywords.any (fun neg => relevantTerms.any (fun term => strIn neg (pyLower term)))
    then 0 else 1
  ((4/10) * keywordScore + (3/10) * categoryScore + (3/10) * semanticScore) * negativeKeywordScore

/-- `_allow_ad_impression`: frequency-capping check. Note that a positive
    answer mutates the record (count increment and `last_shown_ad` update)
    at check time. -/
def allowAdImpression (cid adId : String) (st : FreqState) : Bool × FreqState :=
  match lookupA st cid with
  | none => (true, st)
  | some record =>
    let shownCount := lookupD record.shownAds adId 0
    if shownCount < 3 ∧ record.lastShownAd ≠ some adId then
      (true, setA st cid { record with
        shownAds := setA record.shownAds adId (shownCount + 1),
        lastShownAd := some adId })
    else (false, st)

/-- One matched ad with its relevance score (the `match_factors` entry is
    derived data not consumed by any verified property). -/
structure MatchedAd where
  ad : Ad
  relevanceScore : ℚ
deriving DecidableEq, Repr

/-- The candidate loop of `match_ads`: for each active ad in order, score it,
    keep it if it passes the threshold and the frequency check (which mutates
    the frequency state as it answers). -/
def candidateLoop (cfg : Config) (cid : String) (analysis : Analysis) :
    List Ad → List MatchedAd × FreqState → List MatchedAd × FreqState
  | [], acc => acc
  | ad :: rest, (matched, st) =>
    let score := calculateRelevance ad analysis
    if cfg.relevanceThreshold ≤ score then
      let (allowed, st') := allowAdImpression cid ad.id st
      if allowed then candidateLoop cfg cid analysis rest (matched ++ [⟨ad, score⟩], st')
      else candidateLoop cfg cid analysis rest (matched, st')
    else candidateLoop cfg cid analysis rest (matched, st)

/-- `match_ads`: the full per-query pipeline over the mutable frequency state.
    The query analyzer is the external collaborator `analyze`; the Python
    `hash` builtin is the parameter `h`. Exceptions cannot arise in this total
    embedding, matching the blanket `except` that returns `[]`. -/
def matchAds (cfg : Config) (h : String → Int) (analyze : List Message → Analysis)
    (activeAds : List Ad) (hist : List Message) (st : FreqState) :
    List MatchedAd × FreqState :=
  let cid := convId h hist
  let st1 := ensureConv h hist st
  let recent := pySliceLast hist cfg.contextWindowSize
  let analysis := analyze recent
  if activeAds.isEmpty then ([], st1)
  else
    let (matched, st2) := candidateLoop cfg cid analysis activeAds ([], st1)
    ((sortDescBy MatchedAd.relevanceScore matched).take cfg.maxAdsPerRequest, st2)

/-- The count of impressions recorded for `(cid, adId)` in the frequency state
    (0 when either key is absent, matching the `get(..., 0)` defaults). -/
def shownCount (st : FreqState) (cid adId : String) : Nat :=
  match lookupA st cid with
  | none => 0
  | some r => lookupD r.shownAds adId 0

/-- The candidates passing the relevance threshold, in inventory order,
    with their scores — what the loop would keep with no frequency capping. -/
def thresholdCandidates (cfg : Config) (analysis : Analysis) (ads : List Ad) :
    List MatchedAd :=
  (ads.filter fun ad => decide (cfg.relevanceThreshold ≤ calculateRelevance ad analysis)).map
    fun ad => ⟨ad, calculateRelevance ad analysis⟩

def c2Ad : Ad := ⟨"X", ["tv"], [], ["cheap"]⟩

def c2Analyze : List Message → Analysis := fun _ => ⟨["cheap", "tv"], [], [], []⟩

def c3AdA : Ad := ⟨"A", ["a"], [], []⟩

def c3AdB : Ad := ⟨"B", ["b"], [], []⟩

/-- Query analyzer for the two-turn scenario: the first turn mentions only
topic `a` (ad A scores 0.7), the continued conversation mentions both
(ads A and B both score 0.7). -/
def c3Analyze : List Message → Analysis := fun ms =>
  if ms.length ≤ 1 then ⟨["a"], [], [], [("A", 1)]⟩
  else ⟨["a", "b"], [], [], [("A", 1), ("B", 1)]⟩

def c3Hist1 : List Message := [⟨"user", some "hello"⟩]

def c3Hist2 : List Message :=
  [⟨"user", some "hello"⟩, ⟨"assistant", some "hi"⟩, ⟨"user", some "again"⟩]

def c3Run1 : List MatchedAd × FreqState :=
  matchAds defaultConfig (fun _ => 0) c3Analyze [c3AdB, c3AdA] c3Hist1 []

def c3Run2 : List MatchedAd × FreqState :=
  matchAds defaultConfig (fun _ => 0) c3Analyze [c3AdB, c3AdA] c3Hist2 c3Run1.2

def c3wSt : FreqState := [("0", ⟨1, [("A", 3)], some "A"⟩)]

def c4Analysis : Analysis :=
  ⟨["a", "b", "c", "d"], [], ["t"],
   [("A", 1), ("B", 9/10), ("C", 8/10), ("D", 7/10)]⟩

def c4Ads : List Ad :=
  [⟨"A", ["a"], ["t"], []⟩, ⟨"B", ["b"], ["t"], []⟩,
   ⟨"C", ["c"], ["t"], []⟩, ⟨"D", ["d"], ["t"], []⟩]

def c4Run : List MatchedAd × FreqState :=
  matchAds defaultConfig (fun _ => 0) (fun _ => c4Analysis) c4Ads [⟨"user", some "q"⟩] []

def c9Ad : Ad := ⟨"Z", ["zebra"], [], []⟩

def c9Analyze : List Message → Analysis := fun _ => ⟨["laptop"], [], [], []⟩

def c10HistNoContent : List Message := [⟨"user", none⟩]

end AdMatcher

namespace ConfigDriven

/-! # ConfigDrivenAdManager (src/ad_service/ad_delivery/config_driven_ad_manager.py)

The config-driven scorer computes per-ad relevance from keyword matches,
category matches and conversation-intent context, weighted by the ad's
`match_weights` (defaults `{0.4, 0.3, 0.3}`), with a ×1.2 boost for multiple
matched keywords and a cap at 1.0; ads below the 0.3 system threshold are
filtered. The per-conversation context tracker merges topic/intent/preference
scores by decay-then-max and folds history with weight 0.9/0.1. -/
/-- An ad's `match_weights` dict. -/
structure Weights where
  keywordMatch : ℚ
  categoryMatch : ℚ
  intentMatch : ℚ
deriving DecidableEq, Repr

/-- The default weights used when an ad carries no `match_weights`. -/
def defaultWeights : Weights := ⟨4/10, 3/10, 3/10⟩

/-- The ad fields consumed by `_calculate_relevance_scores`. -/
structure CDAd where
  adId : String
  keywords : List String
  categories : List String
  matchWeights : Option Weights
deriving DecidableEq, Repr

/-- `ad.get('match_weights', {defaults})`. -/
def weightsOf (ad : CDAd) : Weights := ad.matchWeights.getD defaultWeights

/-- One value of the per-ad score dict built by `_calculate_relevance_scores`.
    `categoryScore` is an `Option` because the `'category_score'` key exists
    only after the category pass touches the entry. -/
structure ScoredEntry where
  totalScore : ℚ
  keywordScore : ℚ
  directTermScore : ℚ
  intentScore : ℚ
  categoryScore : Option ℚ
  matchedKeywords : List String
  matchedCategories : List String
deriving DecidableEq, Repr

/-- `self.system_config['default_relevance_threshold']` (set to 0.3 in
    `__init__`). -/
def systemThreshold : ℚ := 3/10

/-- The intent score: the maximum stored intent confidence of the
    conversation's context, 0 when there is no context, no tracked
    conversation, or no intent yet.  `contexts` is the `intents` slice of
    `self.conversation_contexts`; `context` is the `conversation_id` when the
    caller supplied one. -/
def intentScoreFor (contexts : List (String × List (String × ℚ)))
    (context : Option String) : ℚ :=
  match context with
  | none => 0
  | some cid =>
    match lookupA contexts cid with
    | none => 0
    | some intents => if intents.isEmpty then 0 else maxListQ (intents.map Prod.snd)

/-- The entry built by the keyword pass of `_calculate_relevance_scores`
    (lines 668–723): keyword score with exact-match boost, a direct-term
    score of 1.0 or 0.8, and the total combining the keyword score with the
    keyword weight, the DIRECT-TERM score with the CATEGORY weight, and the
    intent score with the intent weight; ×1.2 for more than one matched
    keyword; capped at 1.0. -/
def keywordEntry (query : String) (ad : CDAd) (matchedKeywords : List String)
    (intentScore : ℚ) : ScoredEntry :=
  let w := weightsOf ad
  let totalKeywords := ad.keywords.length
  let keywordCount := matchedKeywords.length
  let keywordBoost : ℚ :=
    if matchedKeywords.any (fun kw => strIn (pyLower kw) (pyLower query)) then 3/2 else 1
  let keywordScore :=
    pyMin 1 (((keywordCount : ℚ) / ((natMax 1 (natMin totalKeywords 5) : Nat) : ℚ)) * keywordBoost)
  let directTermScore : ℚ := if matchedKeywords.any (fun kw => strIn kw query) then 1 else 8/10
  let totalScore :=
    keywordScore * w.keywordMatch + directTermScore * w.categoryMatch +
      intentScore * w.intentMatch
  let totalScore := if 1 < keywordCount then totalScore * (12/10) else totalScore
  ⟨pyMin 1 totalScore, keywordScore, directTermScore, intentScore, none, matchedKeywords, []⟩

/-- The category score of the category pass (line 739). -/
def categoryScoreOf (ad : CDAd) (matchedCategories : List String) : ℚ :=
  let totalCategories := ad.categories.length
  if 0 < totalCategories then
    pyMin 1 ((matchedCategories.length : ℚ) / ((natMax 1 totalCategories : Nat) : ℚ))
  else 0

/-- The score dict after both passes of `_calculate_relevance_scores`, before
    the threshold filter.  Both passes iterate the match dicts in order; for
    each ad id every ad record with that id is processed (the inner
    `for ad in self.ads.values()` has no break), later assignments
    overwriting earlier ones, exactly as in the source.  The source recomputes
    the intent score inside each iteration; it does not depend on the loop
    variables, so it is hoisted here. -/
def calcScoresRaw (query : String)
    (keywordMatches categoryMatches : List (String × List String))
    (context : Option String) (contexts : List (String × List (String × ℚ)))
    (ads : List CDAd) : List (String × ScoredEntry) :=
  let intentScore := intentScoreFor contexts context
  let scored1 := keywordMatches.foldl (fun acc (p : String × List String) =>
    ads.foldl (fun acc2 ad =>
      if ad.adId = p.1 then setA acc2 p.1 (keywordEntry query ad p.2 intentScore)
      else acc2) acc) []
  categoryMatches.foldl (fun acc (p : String × List String) =>
    ads.foldl (fun acc2 ad =>
      if ad.adId = p.1 then
        let w := weightsOf ad
        let cs := categoryScoreOf ad p.2
        let total := cs * w.categoryMatch + intentScore * w.intentMatch
        match lookupA acc2 p.1 with
        | some entry =>
          setA acc2 p.1 { entry with
            categoryScore := some cs,
            matchedCategories := p.2,
            intentScore := intentScore,
            totalScore := pyMin 1 (entry.totalScore + total) }
        | none =>
          setA acc2 p.1 ⟨pyMin 1 total, 0, 0, intentScore, some cs, [], p.2⟩
      else acc2) acc) scored1

/-- `_calculate_relevance_scores`: the raw score dict filtered by the system
    threshold (the final dict comprehension). -/
def calculateRelevanceScores (query : String)
    (keywordMatches categoryMatches : List (String × List String))
    (context : Option String) (contexts : List (String × List (String × ℚ)))
    (ads : List CDAd) : List (String × ScoredEntry) :=
  (calcScoresRaw query keywordMatches categoryMatches context contexts ads).filter
    (fun p => decide (systemThreshold ≤ p.2.totalScore))

/-- The selection step of `get_relevant_ad` (lines 536–558): sort the scored
    dict items by total score descending and take the top entry; `none` when
    the dict is empty. -/
def selectTopAd (scored : List (String × ScoredEntry)) : Option (String × ScoredEntry) :=
  match sortDescBy (fun p => p.2.totalScore) scored with
  | [] => none
  | top :: _ => some top

/-- Decay-then-max merge for topic scores (lines 300–303):
    `stored = min(1, max(stored*0.8, new))`. -/
def topicDecayMerge (stored new : ℚ) : ℚ := pyMin 1 (pyMax (stored * (8/10)) new)

/-- Decay-then-max merge for preference scores (lines 305–308), slower decay:
    `stored = min(1, max(stored*0.9, new))`. -/
def prefDecayMerge (stored new : ℚ) : ℚ := pyMin 1 (pyMax (stored * (9/10)) new)

/-- Decay-then-max merge for intent scores (lines 330–333):
    `stored = min(1, max(new, stored*0.8))`. -/
def intentDecayMerge (stored new : ℚ) : ℚ := pyMin 1 (pyMax new (stored * (8/10)))

/-- The history fold of `_process_history` (lines 410–424):
    `stored = min(1, stored*0.9 + new*0.1)`, for topics and preferences. -/
def historyFoldMerge (stored new : ℚ) : ℚ :=
  pyMin 1 (stored * (9/10) + new * (1/10))

/-- The per-dict update of `_update_conversation_context` for topics: merge
    each currently extracted topic score into the stored map (`defaultdict`
    lookups default to 0). -/
def updateTopicScores (stored current : List (String × ℚ)) : List (String × ℚ) :=
  current.foldl (fun acc p => setA acc p.1 (topicDecayMerge (lookupD acc p.1 0) p.2)) stored

/-- The per-dict update for preferences. -/
def updatePreferenceScores (stored current : List (String × ℚ)) : List (String × ℚ) :=
  current.foldl (fun acc p => setA acc p.1 (prefDecayMerge (lookupD acc p.1 0) p.2)) stored

/-- The per-dict update for intents. -/
def updateIntentScores (stored current : List (String × ℚ)) : List (String × ℚ) :=
  current.foldl (fun acc p => setA acc p.1 (intentDecayMerge (lookupD acc p.1 0) p.2)) stored

/-- The combine rule exactly as the spec words it (§4.4): `total =
keyword*w.keyword + category*w.category + intent*w.intent`, then the
multiplicative boost (+20% for more than one matched keyword), then clamp to
[0,1].  Written from the spec sentence for comparison with `keywordEntry`. -/
def specCombinedScore (w : Weights) (keywordScore categoryScore intentScore : ℚ)
    (multiKeyword : Bool) : ℚ :=
  let total := keywordScore * w.keywordMatch + categoryScore * w.categoryMatch +
    intentScore * w.intentMatch
  let total := if multiKeyword then total * (12/10) else total
  pyMax 0 (pyMin 1 total)

def c5Ad : CDAd := ⟨"X", ["tv"], ["electronics"], none⟩

def c5Run : List (String × ScoredEntry) :=
  calculateRelevanceScores "tv deals" [("X", ["tv"])] [] none [] [c5Ad]

def c5wEntry : ScoredEntry := keywordEntry "tv deals" c5Ad ["tv"] 0

/-- Bound predicate for scored entries: the total lies in [0, 1]. -/
def EntryInRange (e : ScoredEntry) : Prop := 0 ≤ e.totalScore ∧ e.totalScore ≤ 1

end ConfigDriven

namespace Delivery

/-! # AdDeliveryManager (src/ad_service/ad_delivery/ad_delivery_manager.py)

The delivery manager scores every ad against the (mapping-expanded) query
with four weighted sub-scores — keyword (0.35), category (0.25), semantic
(0.25), direct-term (0.15) — and then ADDS query-type/brand boosts (0.7 for
the boosted ad id, +0.5 for a brand match, +0.4 each for running-shoes and
laptop keyword matches) with no clamp.  `difflib.SequenceMatcher.ratio` is
the parameter `ratio`; `ratcliffRatio` below is its Ratcliff–Obershelp
model, used to instantiate concrete runs. -/
/-- The ad fields consumed by `AdDeliveryManager.get_relevant_ad` (a string
    `category` field is normalised to a one-element list before scoring). -/
structure DAd where
  id : String
  title : String
  description : String
  keywords : List String
  categories : List String
deriving DecidableEq, Repr

/-- Length of the longest common prefix of two character lists. -/
def commonPrefixLen : List Char → List Char → Nat
  | a :: as, b :: bs => if a = b then commonPrefixLen as bs + 1 else 0
  | _, _ => 0

/-- The longest common contiguous block `(i, j, k)` of two character lists,
    earliest-first on ties — `difflib.SequenceMatcher.find_longest_match`. -/
def longestCommonBlock (a b : List Char) : Nat × Nat × Nat :=
  (List.range (a.length + 1)).foldl (fun best i =>
    (List.range (b.length + 1)).foldl (fun best2 j =>
      let k := commonPrefixLen (a.drop i) (b.drop j)
      if best2.2.2 < k then (i, j, k) else best2) best) (0, 0, 0)

/-- Total matched characters of the Ratcliff–Obershelp decomposition: the
    longest common block plus recursive matches to its left and right.  The
    fuel starts at the combined length, which strictly bounds the recursion. -/
def matchedCount : Nat → List Char → List Char → Nat
  | 0, _, _ => 0
  | fuel + 1, a, b =>
    let block := longestCommonBlock a b
    if block.2.2 = 0 then 0
    else block.2.2 + matchedCount fuel (a.take block.1) (b.take block.2.1) +
      matchedCount fuel (a.drop (block.1 + block.2.2)) (b.drop (block.2.1 + block.2.2))

/-- `difflib.SequenceMatcher(None, s, t).ratio()`: `2*M / (len(s)+len(t))`,
    1.0 for two empty strings. -/
def ratcliffRatio (s t : String) : ℚ :=
  let a := s.data
  let b := t.data
  if a.length + b.length = 0 then 1
  else 2 * ((matchedCount (a.length + b.length) a b : ℕ) : ℚ) /
    (((a.length + b.length : ℕ) : ℕ) : ℚ)

/-- Add one term to the expanded-term set (Python `set.add`, determinised to
    first-insertion order; downstream consumers only test membership and
    re-split). -/
def addTerm (terms : List String) (t : String) : List String :=
  if terms.contains t then terms else terms ++ [t]

/-- Python `set.update`. -/
def addTerms (terms : List String) (ts : List String) : List String :=
  ts.foldl addTerm terms

/-- `self.keyword_mappings` from `AdDeliveryManager.__init__`, verbatim. -/
def keywordMappings : List (String × List String) := [
  ("technology", ["tech", "gadget", "electronic", "device", "computer", "digital", "laptop", "notebook", "pc", "desktop", "smartphone", "phone", "mobile"]),
  ("sports", ["sport", "athletic", "fitness", "exercise", "workout", "running", "gym", "marathon", "jogging", "run", "training", "runner", "sneaker", "footwear", "shoes"]),
  ("education", ["learning", "course", "study", "class", "training", "tutorial", "lesson", "education", "teach", "skill", "online course", "certificate", "degree", "professional development"]),
  ("books", ["book", "read", "reading", "literature", "novel", "audiobook", "ebook", "story", "author", "fiction", "nonfiction", "listen", "podcast", "story", "storytelling"]),
  ("fashion", ["clothing", "clothes", "apparel", "wear", "outfit", "dress", "shirt", "pants", "fashion", "style", "designer", "accessory"]),
  ("travel", ["trip", "vacation", "flight", "hotel", "booking", "destination", "travel", "journey", "tourism", "holiday", "adventure"]),
  ("home", ["house", "apartment", "decor", "furniture", "interior", "home", "living", "residence", "property", "real estate", "backyard", "outdoor", "garden"]),
  ("entertainment", ["movie", "film", "show", "stream", "watch", "listen", "music", "entertainment", "media", "video", "game", "play", "fun"]),
  ("running shoes", ["sneakers", "athletic shoes", "sports shoes", "trainers", "running footwear", "jogging shoes", "marathon shoes", "nike", "adidas", "brooks", "asics", "new balance", "hoka", "running gear", "cushioning"]),
  ("nike", ["nike shoes", "nike footwear", "nike sneakers", "nike run", "nike running", "nike zoomx", "zoomx", "invincible", "nike invincible", "nike trainers"]),
  ("macbook", ["mac", "apple laptop", "macbook pro", "macbook air", "apple computer", "m3 chip", "mac os", "macos", "apple"]),
  ("smartphone", ["phone", "mobile", "cell phone", "iphone", "android", "galaxy", "samsung", "pixel", "mobile device", "s25", "s25 ultra"]),
  ("online courses", ["coursera", "online learning", "e-learning", "distance learning", "mooc", "online education", "certificate program", "data science course", "programming class", "python course"]),
  ("data science", ["machine learning", "ai", "artificial intelligence", "big data", "data analysis", "statistics", "python", "r programming", "analytics", "data visualization"]),
  ("audiobooks", ["audible", "audio books", "listening to books", "book narration", "audio stories", "audible plus", "audible premium", "audio content", "spoken word"]),
  ("kitchen", ["kitchn", "kichen", "kitchens", "cooking", "culinary", "cook"]),
  ("faucet", ["facuet", "faucets", "tap", "taps", "water tap", "sink tap"]),
  ("sink", ["sinks", "basin", "washbasin", "wash basin"]),
  ("refrigerator", ["fridge", "refridgerator", "fridges", "cooling", "cooler"]),
  ("stove", ["cooktop", "range", "oven", "cooking surface"]),
  ("dishwasher", ["dish washer", "dishwashing", "dish washing"]),
  ("microwave", ["microwave oven", "micro wave"]),
  ("cabinets", ["cabinet", "cupboard", "cupboards", "storage"]),
  ("countertop", ["counter top", "counter", "counters", "worktop"]),
  ("bathroom", ["bath room", "bathrom", "restroom", "washroom", "lavatory"]),
  ("toilet", ["toilets", "commode", "lavatory", "water closet", "wc"]),
  ("shower", ["showers", "shower head", "shower stall", "shower cabin"]),
  ("bathtub", ["bath tub", "bath", "tub", "soaking tub"]),
  ("vanity", ["vanities", "sink cabinet", "bathroom cabinet"]),
  ("mirror", ["mirrors", "bathroom mirror", "looking glass"]),
  ("tile", ["tiles", "bathroom tiles", "floor tiles", "wall tiles"]),
  ("towel", ["towels", "towel bar", "towel rack", "hand towel"])
  ]

/-- The stopword set of `_calculate_semantic_relevance`. -/
def semanticStopwords : List String := ["to", "for", "is", "of", "the", "in", "that", "a", "with", "on", "and"]

/-- The purchase/research-intent word set of `_calculate_semantic_relevance`. -/
def importantWords : List String := ["buy", "purchase", "recommend", "best", "top", "want", "find", "review", "looking", "get", "good", "great", "search", "need"]

/-- The brand list of `_calculate_direct_term_match`. -/
def brandList : List String := ["nike", "adidas", "asics", "brooks", "new balance", "hoka", "samsung", "apple", "macbook", "audible", "coursera"]

/-- The product-type list of `_calculate_direct_term_match`. -/
def productTypeList : List String := ["running shoes", "running shoe", "shoes", "phone", "smartphone", "laptop", "audiobook", "course"]

/-- The intent-signal table of `_calculate_direct_term_match`. -/
def intentSignalTable : List (String × List String) := [
  ("running", ["run", "running", "jog", "jogging", "marathon"]),
  ("buying", ["buy", "purchase", "shop", "shopping", "looking for", "want", "need", "searching for"]),
  ("learning", ["learn", "study", "course", "education", "training", "skills"]),
  ("listening", ["listen", "audio", "hear", "audiobook", "podcast"])
  ]

/-- `_expand_query_with_mappings`: accumulate the query's words, exact-phrase
    mapping hits, the special running/shoes/nike expansions, per-word mapping
    hits (variation membership, word-in-keyword, keyword-in-word,
    running-shoes special case) and multi-word phrase hits. -/
def expandQueryTerms (mappings : List (String × List String)) (query : String) :
    List String :=
  let terms := addTerms [] (pySplitWs query)
  let terms := mappings.foldl (fun acc (p : String × List String) =>
    if strIn p.1 query then addTerms (addTerm acc p.1) p.2 else acc) terms
  let rsVars := (lookupA mappings "running shoes").getD []
  let terms := if strIn "running" query && strIn "shoes" query then
      addTerms (addTerm terms "running shoes") rsVars else terms
  let terms := if strIn "running" query then
      addTerms (addTerm terms "running") rsVars else terms
  let terms := if strIn "shoes" query then
      addTerms (addTerm terms "shoes") rsVars else terms
  let terms := if strIn "nike" query then
      addTerms (addTerm terms "running shoes") rsVars else terms
  let terms := (pySplitWs query).foldl (fun acc term =>
    mappings.foldl (fun acc2 (p : String × List String) =>
      if p.2.contains term then addTerm acc2 p.1
      else if strIn term p.1 then addTerm acc2 p.1
      else if strIn p.1 term || p.2.any (fun v => strIn v term) then
        addTerms (addTerm acc2 p.1) p.2
      else if p.1 = "running shoes" && (strIn "run" term || strIn "shoe" term) then
        addTerms (addTerm acc2 p.1) p.2
      else acc2) acc) terms
  mappings.foldl (fun acc (p : String × List String) =>
    let acc := if strIn " " p.1 && strIn p.1 query then addTerm acc p.1 else acc
    p.2.foldl (fun acc2 v =>
      if strIn " " v && strIn v query then addTerm (addTerm acc2 p.1) v else acc2) acc) terms

/-- `" ".join(...)` over the expanded terms. -/
def joinSpace : List String → String
  | [] => ""
  | [x] => x
  | x :: rest => x ++ " " ++ joinSpace rest

/-- The expanded query string returned by `_expand_query_with_mappings`. -/
def expandQuery (mappings : List (String × List String)) (query : String) : String :=
  joinSpace (expandQueryTerms mappings query)

/-- `set(query.lower().split())` of `_calculate_keyword_match`. -/
def kwQueryTerms (query : String) : List String := dedup (pySplitWs (pyLower query))

/-- `set(k.lower() for k in keywords)` of `_calculate_keyword_match`. -/
def kwKeywordTerms (keywords : List String) : List String := dedup (keywords.map pyLower)

/-- The match set of `_calculate_keyword_match`: the term intersection plus
    multi-word keywords contained verbatim in the query. -/
def kwMatchSet (query : String) (keywords : List String) : List String :=
  keywords.foldl (fun acc kw =>
    let kwl := pyLower kw
    if strIn " " kwl && strIn kwl (pyLower query) then addTerm acc kwl else acc)
    ((kwQueryTerms query).filter (fun t => (kwKeywordTerms keywords).contains t))

/-- The fuzzy accumulator of `_calculate_keyword_match`: for each unmatched
    query term and each keyword term, add `ratio - 0.75` when the
    `SequenceMatcher` ratio exceeds 0.75. -/
def kwFuzzy (ratio : String → String → ℚ) (query : String)
    (keywords : List String) : ℚ :=
  (kwQueryTerms query).foldl (fun acc q =>
    if (kwMatchSet query keywords).contains q then acc
    else (kwKeywordTerms keywords).foldl (fun acc2 k =>
      if 3/4 < ratio q k then acc2 + (ratio q k - 3/4) else acc2) acc) 0

/-- `_calculate_keyword_match`: exact set-intersection score plus fuzzy
    `SequenceMatcher` score above the 0.75 threshold, weighted 0.6. -/
def calcKeywordMatch (ratio : String → String → ℚ) (query : String)
    (keywords : List String) : ℚ :=
  if keywords.isEmpty then 0
  else
    let denom : ℚ :=
      ((natMax (kwQueryTerms query).length (kwKeywordTerms keywords).length : ℕ) : ℚ)
    let exactMatchScore := ((kwMatchSet query keywords).length : ℚ) / denom
    let fuzzyMatchScore := kwFuzzy ratio query keywords / denom
    exactMatchScore + fuzzyMatchScore * (6/10)

/-- The per-category loop of `_calculate_category_match`, with the early
    `return 1.0` on a category contained verbatim in the query. -/
def catMatchLoop (ratio : String → String → ℚ) (query : String)
    (queryTerms : List String) : List String → ℚ → ℚ
  | [], best => best
  | c :: rest, best =>
    let cl := pyLower c
    if strIn cl query then 1
    else
      let categoryTerms := pySplitWs cl
      let inter := (dedup queryTerms).filter (fun t => categoryTerms.contains t)
      let best := if inter.isEmpty then best
        else pyMax best ((inter.length : ℚ) / (categoryTerms.length : ℚ))
      let maxSim := queryTerms.foldl (fun acc q =>
        categoryTerms.foldl (fun acc2 ct => pyMax acc2 (ratio q ct)) acc) 0
      let best := pyMax best (maxSim * (7/10))
      catMatchLoop ratio query queryTerms rest best

/-- `_calculate_category_match`. -/
def calcCategoryMatch (ratio : String → String → ℚ) (query : String)
    (categories : List String) : ℚ :=
  if categories.isEmpty then 0
  else catMatchLoop ratio query (pySplitWs (pyLower query)) categories 0

/-- The stopword-filtered query word set of `_calculate_semantic_relevance`. -/
def semQueryWords (query : String) : List String :=
  (dedup (pySplitWs (pyLower query))).filter (fun w => ¬ semanticStopwords.contains w)

/-- The stopword-filtered title+description word set of
    `_calculate_semantic_relevance`. -/
def semAdWords (ad : DAd) : List String :=
  (dedup (pySplitWs (pyLower (ad.title ++ " " ++ ad.description)))).filter
    (fun w => ¬ semanticStopwords.contains w)

/-- `_calculate_semantic_relevance`: stopword-filtered Jaccard similarity of
    query words and ad title+description words, plus an intent-word boost,
    capped at 1. -/
def calcSemanticRelevance (query : String) (ad : DAd) : ℚ :=
  let queryWords := semQueryWords query
  let adWords := semAdWords ad
  if queryWords.isEmpty ∨ adWords.isEmpty then 0
  else
    let overlap := queryWords.filter (fun w => adWords.contains w)
    let similarity := (overlap.length : ℚ) /
      (((queryWords.length + adWords.length - overlap.length : ℕ) : ℕ) : ℚ)
    let intentWords := queryWords.filter (fun w => importantWords.contains w)
    let intentBoost : ℚ := if intentWords.isEmpty then 0
      else (2/10) * ((intentWords.length : ℚ) / (queryWords.length : ℚ))
    pyMin 1 (similarity + intentBoost)

/-- `_calculate_direct_term_match`: 0.85 for a brand present in query and ad
    title, +0.75 for a product type present in query and ad title/keywords,
    +0.5 per intent category whose signal occurs in the query and whose name
    occurs in the ad's categories or keywords; capped at 1. -/
def calcDirectTermMatch (query : String) (ad : DAd) : ℚ :=
  let adTitle := pyLower ad.title
  let adKeywords := ad.keywords.map pyLower
  let score : ℚ := 0
  let score := if brandList.any (fun b => strIn b query && strIn b adTitle) then
      score + 85/100 else score
  let score := if productTypeList.any (fun p => strIn p query &&
      (strIn p adTitle || adKeywords.any (fun kw => strIn p kw))) then
      score + 75/100 else score
  let score := intentSignalTable.foldl (fun acc (p : String × List String) =>
    if p.2.any (fun signal => strIn signal query) &&
       (ad.categories.any (fun cat => strIn p.1 (pyLower cat)) ||
        adKeywords.any (fun kw => strIn p.1 kw)) then acc + 5/10 else acc) score
  pyMin score 1

/-- The boosted-ad-id computation of `get_relevant_ad` (lines 238–271): a
    running/shoes/nike query boosts the first Nike-titled ad (fallback id
    `"ad_101"`); a laptop query then overrides with the first MacBook-titled
    ad (fallback `"ad_103"` only when nothing was boosted yet). -/
def computeBoostedAdId (query : String) (ads : List DAd) : Option String :=
  let q := pyLower query
  let b1 : Option String :=
    if strIn "running" q || strIn "run" q || strIn "shoes" q || strIn "nike" q then
      match ads.find? (fun ad => strIn "nike" (pyLower ad.title)) with
      | some ad => some ad.id
      | none => some "ad_101"
    else none
  if strIn "laptop" q || strIn "macbook" q || strIn "computer" q || strIn "mac" q then
    match ads.find? (fun ad => strIn "macbook" (pyLower ad.title) ||
        (strIn "mac" (pyLower ad.title) && strIn "book" (pyLower ad.title))) with
    | some ad => some ad.id
    | none => if b1 = none then some "ad_103" else b1
  else b1

/-- The additive boost of the scoring loop (lines 290–316). -/
def adBoost (query : String) (ad : DAd) (boostedAdId : Option String) : ℚ :=
  let q := pyLower query
  let boost : ℚ := 0
  let boost := if boostedAdId = some ad.id then boost + 7/10 else boost
  let boost := if strIn "nike" q && strIn "nike" (pyLower ad.title) then
      boost + 5/10 else boost
  let boost := if (strIn "running shoes" q || strIn "running shoe" q ||
      strIn "running" q || strIn "shoes" q) &&
      ad.keywords.any (fun kw => strIn "run" (pyLower kw) || strIn "shoe" (pyLower kw)) then
      boost + 4/10 else boost
  let boost := if (strIn "laptop" q || strIn "computer" q || strIn "macbook" q ||
      strIn "notebook" q || strIn "mac" q) &&
      ad.keywords.any (fun kw => strIn "laptop" (pyLower kw) ||
        strIn "macbook" (pyLower kw) || strIn "computer" (pyLower kw)) then
      boost + 4/10 else boost
  boost

/-- The per-ad total score of `get_relevant_ad` (lines 273–324), for a call
    with no conversation context (`search_text = query`): weighted sub-scores
    plus the additive boost, with no clamp.  The query is lowercased on entry
    (line 192). -/
def deliveryTotalScore (ratio : String → String → ℚ) (rawQuery : String)
    (ads : List DAd) (ad : DAd) : ℚ :=
  let query := pyLower rawQuery
  let searchText := query
  let expandedQuery := expandQuery keywordMappings searchText
  let boostedAdId := computeBoostedAdId query ads
  let keywordScore := calcKeywordMatch ratio expandedQuery ad.keywords
  let categoryScore := calcCategoryMatch ratio expandedQuery ad.categories
  let semanticScore := calcSemanticRelevance searchText ad
  let directTermScore := calcDirectTermMatch query ad
  let boost := adBoost query ad boostedAdId
  keywordScore * (35/100) + categoryScore * (25/100) + semanticScore * (25/100) +
    directTermScore * (15/100) + boost

end Delivery

def c1Ad : Delivery.DAd := ⟨"ad_101", "Shoe Store", "", ["shoes"], []⟩

def c1CdAd : ConfigDriven.CDAd := ⟨"Y", ["tv"], [], none⟩

def c1DAd : Delivery.DAd := ⟨"W", "Widget World", "gadgets for all", ["widget"], ["home"]⟩

namespace Ranking

/-! # RankingEngine (src/ad_service/ad_matching/ranking_engine.py)

Business ranking on top of relevance: bid, CTR, budget and targeting
factors, combined with configurable weights (defaults
0.40/0.35/0.15/0.05/0.05), plus a per-ad tie-breaking jitter
`random.uniform(0, 0.01) * combined` — the random draw is the parameter
`jit : Nat → ℚ` (one draw per ad in loop order, each in `[0, 0.01)`). -/
/-- `target_audience.demographics` of an ad. -/
structure TargetDemo where
  ageMin : Option ℚ
  ageMax : Option ℚ
  location : Option String
deriving DecidableEq, Repr

/-- `target_audience` of an ad (absent keys are `none`). -/
structure TargetAudience where
  interests : Option (List String)
  demographics : Option TargetDemo
deriving DecidableEq, Repr

/-- The ad fields consumed by `rank_ads` (`ad.get(..., 0)` defaults are the
    field values; `performance.get("ctr", 0.0)` is `ctr`). -/
structure RAd where
  bidAmount : ℚ
  ctr : ℚ
  dailyBudget : ℚ
  spentToday : ℚ
  targetAudience : Option TargetAudience
deriving DecidableEq, Repr

/-- `user_context.demographics`. -/
structure UserDemo where
  age : Option ℚ
  location : Option String
deriving DecidableEq, Repr

/-- The user context; `none` stands for Python `None` or the empty dict
    (both falsy at the `if not user_context` guard). -/
structure UserContext where
  interests : Option (List String)
  demographics : Option UserDemo
deriving DecidableEq, Repr

/-- One element of `matched_ads`: the ad with its relevance score. -/
structure RankMatch where
  ad : RAd
  relevanceScore : ℚ
deriving DecidableEq, Repr

/-- The ranking configuration: the five weights plus `max_bid` and
    `baseline_ctr`. -/
structure RankConfig where
  wRelevance : ℚ
  wBid : ℚ
  wCtr : ℚ
  wBudget : ℚ
  wTargeting : ℚ
  maxBid : ℚ
  baselineCtr : ℚ
deriving DecidableEq, Repr

/-- The defaults of `RankingEngine.__init__` (weights 0.40/0.35/0.15/0.05/0.05,
    `max_bid` 5.0, `baseline_ctr` 2.0). -/
def defaultRankConfig : RankConfig := ⟨40/100, 35/100, 15/100, 5/100, 5/100, 5, 2⟩

/-- `_normalize_bid`. -/
def normalizeBid (cfg : RankConfig) (bidAmount : ℚ) : ℚ :=
  if cfg.maxBid ≤ 0 then 0 else pyMin 1 (bidAmount / cfg.maxBid)

/-- `_get_ctr_factor`. -/
def ctrFactor (cfg : RankConfig) (ad : RAd) : ℚ :=
  if cfg.baselineCtr ≤ 0 then 0 else pyMin 1 (ad.ctr / cfg.baselineCtr)

/-- `_get_budget_factor`. -/
def budgetFactor (ad : RAd) : ℚ :=
  if ad.dailyBudget ≤ 0 then 0
  else pyMax 0 (pyMin 1 ((ad.dailyBudget - ad.spentToday) / ad.dailyBudget))

/-- The interest-overlap contribution of `_get_targeting_factor`:
    `len(ad_interests ∩ user_interests) / len(ad_interests) * 0.5` when both
    interest sets are present and nonempty. -/
def interestScore (ta : TargetAudience) (ctx : UserContext) : ℚ :=
  match ta.interests, ctx.interests with
  | some adInterests, some userInterests =>
    if ¬ (dedup adInterests).isEmpty ∧ ¬ (dedup userInterests).isEmpty then
      ((((dedup adInterests).filter
        (fun i => (dedup userInterests).contains i)).length : ℚ) /
          ((dedup adInterests).length : ℚ)) * (1/2)
    else 0
  | _, _ => 0

/-- The age-containment contribution (0.25) of `_get_targeting_factor`. -/
def ageScore (adDemo : TargetDemo) (userDemo : UserDemo) : ℚ :=
  match adDemo.ageMin, adDemo.ageMax, userDemo.age with
  | some ageMin, some ageMax, some age =>
    if ageMin ≤ age ∧ age ≤ ageMax then 1/4 else 0
  | _, _, _ => 0

/-- The location-equality contribution (0.25) of `_get_targeting_factor`. -/
def locScore (adDemo : TargetDemo) (userDemo : UserDemo) : ℚ :=
  match adDemo.location, userDemo.location with
  | some adLoc, some userLoc => if adLoc = userLoc then 1/4 else 0
  | _, _ => 0

/-- The demographics contribution of `_get_targeting_factor`. -/
def demoScore (ta : TargetAudience) (ctx : UserContext) : ℚ :=
  match ta.demographics, ctx.demographics with
  | some adDemo, some userDemo => ageScore adDemo userDemo + locScore adDemo userDemo
  | _, _ => 0

/-- `_get_targeting_factor`: 0.5 when there is no user context or no target
    audience; otherwise interest overlap (up to 0.5) plus age containment
    (0.25) plus location equality (0.25), capped at 1. -/
def targetingFactor (ad : RAd) (userCtx : Option UserContext) : ℚ :=
  match userCtx, ad.targetAudience with
  | none, _ => 1/2
  | _, none => 1/2
  | some ctx, some ta => pyMin 1 (interestScore ta ctx + demoScore ta ctx)

/-- The combined (pre-jitter) score of one matched ad. -/
def combinedScore (cfg : RankConfig) (userCtx : Option UserContext)
    (m : RankMatch) : ℚ :=
  cfg.wRelevance * m.relevanceScore +
  cfg.wBid * normalizeBid cfg m.ad.bidAmount +
  cfg.wCtr * ctrFactor cfg m.ad +
  cfg.wBudget * budgetFactor m.ad +
  cfg.wTargeting * targetingFactor m.ad userCtx

/-- One output row of `rank_ads`. -/
structure RankedAd where
  ad : RAd
  relevanceScore : ℚ
  finalScore : ℚ
deriving DecidableEq, Repr

/-- The scoring loop of `rank_ads`: the i-th ad draws `jit i` and gets
    `final = combined + jit i * combined`. -/
def rankLoop (cfg : RankConfig) (userCtx : Option UserContext) (jit : Nat → ℚ) :
    Nat → List RankMatch → List RankedAd
  | _, [] => []
  | i, m :: rest =>
    let combined := combinedScore cfg userCtx m
    ⟨m.ad, m.relevanceScore, combined + jit i * combined⟩ ::
      rankLoop cfg userCtx jit (i + 1) rest

/-- `rank_ads`: empty input short-circuits to `[]`; otherwise score each ad
    and sort by final score descending (Python's stable sort). -/
def rankAds (cfg : RankConfig) (matched : List RankMatch)
    (userCtx : Option UserContext) (jit : Nat → ℚ) : List RankedAd :=
  if matched.isEmpty then []
  else sortDescBy RankedAd.finalScore (rankLoop cfg userCtx jit 0 matched)

def c7Match : RankMatch := ⟨⟨1, 1, 10, 2, none⟩, 1/2⟩

end Ranking

namespace QueryAnalyzer

/-! # QueryAnalyzer (src/ad_service/ad_matching/query_analyzer.py)

`_extract_data_with_openai` wraps the external extraction call in a blanket
`try/except`: an exception (API error, timeout) yields the default
extraction; a response that fails `json.loads` goes to
`_fallback_extraction`, which scrapes `Keywords:` / `Intent:` /
`Commercial Intent:` / `Sentiment:` / `Topics:` sections from the raw text;
a parsed JSON object is completed with defaults for missing keys.  The
outcome of the external call and its parse is the input sum type. -/
/-- A parsed JSON response: the seven expected keys, `none` when absent
    (the `default_keys` loop fills those in). -/
structure ExtractJson where
  keywords : Option (List String)
  intent : Option String
  categories : Option (List String)
  entities : Option (List String)
  sentiment : Option String
  isCommercialIntent : Option Bool
  topics : Option (List String)
deriving DecidableEq, Repr

/-- The result dict of `_extract_data_with_openai`. -/
structure ExtractedData where
  keywords : List String
  intent : String
  categories : List String
  entities : List String
  sentiment : String
  isCommercialIntent : Bool
  topics : List String
deriving DecidableEq, Repr

/-- The defaults returned on any exception (`keywords: [] … sentiment:
    "neutral" … intent: "unknown"`). -/
def defaultExtraction : ExtractedData :=
  ⟨[], "unknown", [], [], "neutral", false, []⟩

/-- The outcome of the external extraction call, as observed by the
    `try/except` structure: an exception anywhere in the call, a response
    whose body parses as JSON, or a response whose body fails `json.loads`. -/
inductive OpenAIOutcome where
  | failure
  | jsonPayload (obj : ExtractJson)
  | rawPayload (text : String)
deriving DecidableEq, Repr

/-- Python `str.split(sep)` (fuel-bounded; the fuel is the text length,
    which bounds the number of steps since each step consumes at least one
    character — `sep` is nonempty at every call site). -/
def splitOnFuel (sep : List Char) : Nat → List Char → List Char → List (List Char)
  | _, [], acc => [acc.reverse]
  | 0, hay, acc => [acc.reverse ++ hay]
  | fuel + 1, c :: rest, acc =>
    if ¬ sep.isEmpty && listPrefix sep (c :: rest) then
      acc.reverse :: splitOnFuel sep fuel ((c :: rest).drop sep.length) []
    else splitOnFuel sep fuel rest (c :: acc)

/-- Python `text.split(sep)`. -/
def pySplitOn (sep text : String) : List String :=
  (splitOnFuel sep.data text.data.length text.data []).map String.mk

/-- `text.split(marker)[1].split("\n")[0]`: the section between the first
    marker occurrence and the following newline (or next marker).  Call
    sites guard with `marker in text`, so index 1 exists. -/
def sectionAfter (marker text : String) : String :=
  ((pySplitOn "\n" ((pySplitOn marker text).getD 1 "")).getD 0 "")

/-- `_fallback_extraction`: scrape the labelled sections out of the raw
    response text; anything missing keeps its default. -/
def fallbackExtraction (text : String) : ExtractedData :=
  let keywords :=
    if strIn "Keywords:" text then
      (pySplitOn "," (sectionAfter "Keywords:" text)).map pyStrip
    else []
  let intent :=
    if strIn "Intent:" text then
      let intentSection := pyLower (pyStrip (sectionAfter "Intent:" text))
      if strIn "informational" intentSection then "informational"
      else if strIn "transactional" intentSection then "transactional"
      else if strIn "navigational" intentSection then "navigational"
      else "unknown"
    else "unknown"
  let isCommercial :=
    if strIn "Commercial Intent:" text then
      let commercialSection := pyLower (pyStrip (sectionAfter "Commercial Intent:" text))
      strIn "true" commercialSection || strIn "yes" commercialSection
    else false
  let sentiment :=
    if strIn "Sentiment:" text then
      let sentimentSection := pyLower (pyStrip (sectionAfter "Sentiment:" text))
      if strIn "positive" sentimentSection then "positive"
      else if strIn "negative" sentimentSection then "negative"
      else "neutral"
    else "neutral"
  let topics :=
    if strIn "Topics:" text then
      (pySplitOn "," (sectionAfter "Topics:" text)).map pyStrip
    else []
  ⟨keywords, intent, [], [], sentiment, isCommercial, topics⟩

/-- `_extract_data_with_openai` as a total function of the call outcome:
    exceptions yield the defaults, unparseable payloads go to the local
    fallback, parsed JSON is completed with the defaults for missing keys.
    Totality is the embedding of "never raises past this component". -/
def extractDataWithOpenai : OpenAIOutcome → ExtractedData
  | .failure => defaultExtraction
  | .jsonPayload j =>
    ⟨j.keywords.getD [], j.intent.getD "unknown", j.categories.getD [],
     j.entities.getD [], j.sentiment.getD "neutral",
     j.isCommercialIntent.getD false, j.topics.getD []⟩
  | .rawPayload t => fallbackExtraction t

end QueryAnalyzer

/-! # Theorems

General lemmas about the utility layer, per-component lemmas, and the
claim theorems with their witnesses and counterexamples. -/

theorem pyMin_eq (a b : ℚ) : pyMin a b = min a b := (min_def a b).symm

theorem pyMax_eq (a b : ℚ) : pyMax a b = max a b := (max_def a b).symm

theorem natMin_eq (a b : Nat) : natMin a b = min a b := (min_def a b).symm

theorem natMax_eq (a b : Nat) : natMax a b = max a b := (max_def a b).symm

theorem mem_insertDescBy {α : Type} (score : α → ℚ) (m x : α) (l : List α) :
    x ∈ insertDescBy score m l ↔ x = m ∨ x ∈ l := by
  induction l with
  | nil => simp [insertDescBy]
  | cons hd tl ih =>
    by_cases h : score m ≤ score hd
    · simp only [insertDescBy, if_pos h, List.mem_cons, ih]
      tauto
    · simp only [insertDescBy, if_neg h, List.mem_cons]

theorem mem_sortDescBy_aux {α : Type} (score : α → ℚ) (x : α) (l acc : List α) :
    x ∈ l.foldl (fun acc m => insertDescBy score m acc) acc ↔ x ∈ acc ∨ x ∈ l := by
  induction l generalizing acc with
  | nil => simp
  | cons hd tl ih =>
    simp only [List.foldl_cons, ih, mem_insertDescBy, List.mem_cons]
    tauto

theorem mem_sortDescBy {α : Type} (score : α → ℚ) (x : α) (l : List α) :
    x ∈ sortDescBy score l ↔ x ∈ l := by
  simp [sortDescBy, mem_sortDescBy_aux]

theorem pairwise_insertDescBy {α : Type} (score : α → ℚ) (m : α) (l : List α)
    (hl : l.Pairwise (fun a b => score b ≤ score a)) :
    (insertDescBy score m l).Pairwise (fun a b => score b ≤ score a) := by
  induction l with
  | nil => simp [insertDescBy]
  | cons hd tl ih =>
    rcases List.pairwise_cons.mp hl with ⟨hhd, htl⟩
    by_cases h : score m ≤ score hd
    · rw [insertDescBy, if_pos h]
      refine List.pairwise_cons.mpr ⟨?_, ih htl⟩
      intro y hy
      rcases (mem_insertDescBy score m y tl).mp hy with rfl | hy'
      · exact h
      · exact hhd y hy'
    · rw [insertDescBy, if_neg h]
      refine List.pairwise_cons.mpr ⟨?_, hl⟩
      intro y hy
      rcases List.mem_cons.mp hy with rfl | hy'
      · exact le_of_lt (lt_of_not_le h)
      · exact le_trans (hhd y hy') (le_of_lt (lt_of_not_le h))

theorem pairwise_sortDescBy {α : Type} (score : α → ℚ) (l : List α) :
    (sortDescBy score l).Pairwise (fun a b => score b ≤ score a) := by
  have aux : ∀ (l acc : List α), acc.Pairwise (fun a b => score b ≤ score a) →
      (l.foldl (fun acc m => insertDescBy score m acc) acc).Pairwise
        (fun a b => score b ≤ score a) := by
    intro l
    induction l with
    | nil => intro acc h; simpa using h
    | cons hd tl ih =>
      intro acc h
      exact ih _ (pairwise_insertDescBy score hd acc h)
  exact aux l [] (by simp)

theorem lookupA_setA_self {β : Type} (l : List (String × β)) (k : String) (v : β) :
    lookupA (setA l k v) k = some v := by
  induction l with
  | nil => simp [setA, lookupA]
  | cons hd tl ih =>
    obtain ⟨k', v'⟩ := hd
    by_cases h : k' = k
    · simp [setA, h, lookupA]
    · simp [setA, h, lookupA, ih]

theorem lookupA_setA_ne {β : Type} (l : List (String × β)) (k k' : String) (v : β)
    (h : k ≠ k') : lookupA (setA l k v) k' = lookupA l k' := by
  induction l with
  | nil => simp [setA, lookupA, h]
  | cons hd tl ih =>
    obtain ⟨k₀, v₀⟩ := hd
    by_cases h₀ : k₀ = k
    · subst h₀
      simp [setA, lookupA, h]
    · simp [setA, h₀, lookupA, ih]

namespace AdMatcher

theorem allow_of_lookup_none (cid adId : String) (st : FreqState)
    (h : lookupA st cid = none) : allowAdImpression cid adId st = (true, st) := by
  unfold allowAdImpression
  rw [h]

theorem allow_of_ge3 (cid adId : String) (st : FreqState)
    (h3 : 3 ≤ shownCount st cid adId) : allowAdImpression cid adId st = (false, st) := by
  cases hl : lookupA st cid with
  | none => simp [shownCount, hl] at h3
  | some r =>
    simp only [shownCount, hl] at h3
    have hcond : ¬ (lookupD r.shownAds adId 0 < 3 ∧ r.lastShownAd ≠ some adId) := by
      intro hc
      omega
    simp [allowAdImpression, hl, hcond]

theorem shownCount_allow_ne (cid adId adId' : String) (st : FreqState)
    (hne : adId' ≠ adId) :
    shownCount (allowAdImpression cid adId' st).2 cid adId = shownCount st cid adId := by
  cases hl : lookupA st cid with
  | none => simp [allowAdImpression, hl]
  | some r =>
    by_cases hc : lookupD r.shownAds adId' 0 < 3 ∧ r.lastShownAd ≠ some adId'
    · simp only [allowAdImpression, hl, if_pos hc]
      simp only [shownCount, hl, lookupA_setA_self]
      unfold lookupD
      rw [lookupA_setA_ne _ _ _ _ hne]
    · simp [allowAdImpression, hl, if_neg hc]

theorem lookupA_allow_frame (cid adId c : String) (st : FreqState) (hne : c ≠ cid) :
    lookupA (allowAdImpression cid adId st).2 c = lookupA st c := by
  cases hl : lookupA st cid with
  | none => simp [allowAdImpression, hl]
  | some r =>
    by_cases hc : lookupD r.shownAds adId 0 < 3 ∧ r.lastShownAd ≠ some adId
    · simp only [allowAdImpression, hl, if_pos hc]
      exact lookupA_setA_ne _ _ _ _ (fun h => hne h.symm)
    · simp [allowAdImpression, hl, if_neg hc]

theorem candidateLoop_members (cfg : Config) (cid : String) (analysis : Analysis) :
    ∀ (ads : List Ad) (m0 : List MatchedAd) (st0 : FreqState) (m : MatchedAd),
    m ∈ (candidateLoop cfg cid analysis ads (m0, st0)).1 →
    m ∈ m0 ∨ (m.ad ∈ ads ∧ m.relevanceScore = calculateRelevance m.ad analysis ∧
              cfg.relevanceThreshold ≤ m.relevanceScore) := by
  intro ads
  induction ads with
  | nil =>
    intro m0 st0 m hm
    exact Or.inl (by simpa [candidateLoop] using hm)
  | cons ad rest ih =>
    intro m0 st0 m hm
    by_cases hth : cfg.relevanceThreshold ≤ calculateRelevance ad analysis
    · simp only [candidateLoop, if_pos hth] at hm
      cases hA : allowAdImpression cid ad.id st0 with
      | mk allowed st' =>
        rw [hA] at hm
        cases allowed with
        | true =>
          simp only [if_pos rfl] at hm
          rcases ih _ _ m hm with hm0 | ⟨hmem, hsc, hge⟩
          · rcases List.mem_append.mp hm0 with h | h
            · exact Or.inl h
            · rcases List.mem_singleton.mp h with rfl
              exact Or.inr ⟨List.mem_cons_self _ _, rfl, hth⟩
          · exact Or.inr ⟨List.mem_cons_of_mem _ hmem, hsc, hge⟩
        | false =>
          simp only [Bool.false_eq_true, if_neg] at hm
          rcases ih _ _ m hm with hm0 | ⟨hmem, hsc, hge⟩
          · exact Or.inl hm0
          · exact Or.inr ⟨List.mem_cons_of_mem _ hmem, hsc, hge⟩
    · simp only [candidateLoop, if_neg hth] at hm
      rcases ih _ _ m hm with hm0 | ⟨hmem, hsc, hge⟩
      · exact Or.inl hm0
      · exact Or.inr ⟨List.mem_cons_of_mem _ hmem, hsc, hge⟩

theorem candidateLoop_capped (cfg : Config) (cid : String) (analysis : Analysis)
    (adId : String) :
    ∀ (ads : List Ad) (m0 : List MatchedAd) (st0 : FreqState),
    3 ≤ shownCount st0 cid adId →
    (∀ m ∈ m0, m.ad.id ≠ adId) →
    (∀ m ∈ (candidateLoop cfg cid analysis ads (m0, st0)).1, m.ad.id ≠ adId) ∧
    shownCount (candidateLoop cfg cid analysis ads (m0, st0)).2 cid adId =
      shownCount st0 cid adId := by
  intro ads
  induction ads with
  | nil =>
    intro m0 st0 h3 hm0
    exact ⟨by simpa [candidateLoop] using hm0, by simp [candidateLoop]⟩
  | cons ad rest ih =>
    intro m0 st0 h3 hm0
    by_cases hth : cfg.relevanceThreshold ≤ calculateRelevance ad analysis
    · by_cases hid : ad.id = adId
      · have hblock : allowAdImpression cid ad.id st0 = (false, st0) := by
          rw [hid]
          exact allow_of_ge3 cid adId st0 h3
        simp only [candidateLoop, if_pos hth, hblock, Bool.false_eq_true, if_neg]
        exact ih m0 st0 h3 hm0
      · cases hA : allowAdImpression cid ad.id st0 with
        | mk allowed st' =>
          have hcount : shownCount st' cid adId = shownCount st0 cid adId := by
            have := shownCount_allow_ne cid adId ad.id st0 hid
            rw [hA] at this
            exact this
          simp only [candidateLoop, if_pos hth, hA]
          cases allowed with
          | true =>
            simp only [if_pos rfl]
            have hm0' : ∀ m ∈ m0 ++ [(⟨ad, calculateRelevance ad analysis⟩ : MatchedAd)],
                m.ad.id ≠ adId := by
              intro m hm
              rcases List.mem_append.mp hm with h | h
              · exact hm0 m h
              · rcases List.mem_singleton.mp h with rfl
                exact hid
            have := ih _ st' (hcount ▸ h3) hm0'
            exact ⟨this.1, this.2.trans hcount⟩
          | false =>
            simp only [Bool.false_eq_true, if_neg]
            have := ih m0 st' (hcount ▸ h3) hm0
            exact ⟨this.1, this.2.trans hcount⟩
    · simp only [candidateLoop, if_neg hth]
      exact ih m0 st0 h3 hm0

theorem candidateLoop_frame (cfg : Config) (cid : String) (analysis : Analysis)
    (c : String) (hne : c ≠ cid) :
    ∀ (ads : List Ad) (m0 : List MatchedAd) (st0 : FreqState),
    lookupA (candidateLoop cfg cid analysis ads (m0, st0)).2 c = lookupA st0 c := by
  intro ads
  induction ads with
  | nil =>
    intro m0 st0
    simp [candidateLoop]
  | cons ad rest ih =>
    intro m0 st0
    by_cases hth : cfg.relevanceThreshold ≤ calculateRelevance ad analysis
    · cases hA : allowAdImpression cid ad.id st0 with
      | mk allowed st' =>
        have hframe : lookupA st' c = lookupA st0 c := by
          have := lookupA_allow_frame cid ad.id c st0 hne
          rw [hA] at this
          exact this
        simp only [candidateLoop, if_pos hth, hA]
        cases allowed with
        | true =>
          simp only [if_pos rfl]
          exact (ih _ st').trans hframe
        | false =>
          simp only [Bool.false_eq_true, if_neg]
          exact (ih m0 st').trans hframe
    · simp only [candidateLoop, if_neg hth]
      exact ih m0 st0

theorem candidateLoop_all_below (cfg : Config) (cid : String) (analysis : Analysis) :
    ∀ (ads : List Ad) (m0 : List MatchedAd) (st0 : FreqState),
    (∀ ad ∈ ads, calculateRelevance ad analysis < cfg.relevanceThreshold) →
    candidateLoop cfg cid analysis ads (m0, st0) = (m0, st0) := by
  intro ads
  induction ads with
  | nil => intro m0 st0 _; simp [candidateLoop]
  | cons ad rest ih =>
    intro m0 st0 hbelow
    have hth : ¬ cfg.relevanceThreshold ≤ calculateRelevance ad analysis :=
      not_le.mpr (hbelow ad (List.mem_cons_self _ _))
    simp only [candidateLoop, if_neg hth]
    exact ih m0 st0 (fun a ha => hbelow a (List.mem_cons_of_mem _ ha))

theorem candidateLoop_unknown (cfg : Config) (cid : String) (analysis : Analysis) :
    ∀ (ads : List Ad) (m0 : List MatchedAd) (st0 : FreqState),
    lookupA st0 cid = none →
    candidateLoop cfg cid analysis ads (m0, st0) =
      (m0 ++ thresholdCandidates cfg analysis ads, st0) := by
  intro ads
  induction ads with
  | nil => intro m0 st0 _; simp [candidateLoop, thresholdCandidates]
  | cons ad rest ih =>
    intro m0 st0 hnone
    by_cases hth : cfg.relevanceThreshold ≤ calculateRelevance ad analysis
    · simp only [candidateLoop, if_pos hth, allow_of_lookup_none cid ad.id st0 hnone,
        if_pos rfl]
      rw [ih _ st0 hnone]
      simp [thresholdCandidates, hth, List.append_assoc]
    · simp only [candidateLoop, if_neg hth]
      rw [ih m0 st0 hnone]
      simp [thresholdCandidates, hth]

theorem listPrefix_self : ∀ l : List Char, listPrefix l l = true := by
  intro l
  induction l with
  | nil => rfl
  | cons c rest ih => simp [listPrefix, ih]

theorem strIn_self (s : String) : strIn s s = true := by
  unfold strIn
  cases hd : s.data with
  | nil => rfl
  | cons c rest =>
    unfold listSub
    simp [listPrefix_self]

theorem ensureConv_frame (h : String → Int) (hist : List AdMatcher.Message)
    (st : AdMatcher.FreqState) (c : String) (hne : c ≠ AdMatcher.convId h hist) :
    lookupA (AdMatcher.ensureConv h hist st) c = lookupA st c := by
  cases hist with
  | nil => rfl
  | cons m t =>
    cases hc : m.content with
    | none => simp [AdMatcher.ensureConv, hc]
    | some s =>
      simp only [AdMatcher.ensureConv, hc]
      cases hl : lookupA st (AdMatcher.convId h (m :: t)) with
      | some r => rfl
      | none => exact lookupA_setA_ne _ _ _ _ (fun he => hne he.symm)

theorem ensureConv_of_found (h : String → Int) (hist : List AdMatcher.Message)
    (st : AdMatcher.FreqState) (r : AdMatcher.FreqRecord)
    (hfound : lookupA st (AdMatcher.convId h hist) = some r) :
    AdMatcher.ensureConv h hist st = st := by
  cases hist with
  | nil => rfl
  | cons m t =>
    cases hc : m.content with
    | none => simp [AdMatcher.ensureConv, hc]
    | some s =>
      simp only [AdMatcher.ensureConv, hc]
      rw [hfound]

theorem ensureConv_of_nocontent (h : String → Int) (hist : List AdMatcher.Message)
    (st : AdMatcher.FreqState)
    (hno : ∀ m ∈ hist.head?, m.content = none) :
    AdMatcher.ensureConv h hist st = st ∧
    AdMatcher.convId h hist = "unknown_conversation" := by
  cases hist with
  | nil => exact ⟨rfl, rfl⟩
  | cons m t =>
    have hc : m.content = none := hno m (by simp)
    exact ⟨by simp [AdMatcher.ensureConv, hc], by simp [AdMatcher.convId, hc]⟩

theorem matchAds_eq (cfg : Config) (h : String → Int)
    (analyze : List Message → Analysis) (activeAds : List Ad)
    (hist : List Message) (st : FreqState) :
    matchAds cfg h analyze activeAds hist st =
      if activeAds.isEmpty then ([], ensureConv h hist st)
      else
        ((sortDescBy MatchedAd.relevanceScore
            (candidateLoop cfg (convId h hist)
              (analyze (pySliceLast hist cfg.contextWindowSize)) activeAds
              ([], ensureConv h hist st)).1).take cfg.maxAdsPerRequest,
         (candidateLoop cfg (convId h hist)
            (analyze (pySliceLast hist cfg.contextWindowSize)) activeAds
            ([], ensureConv h hist st)).2) := by
  unfold matchAds
  by_cases hemp : activeAds.isEmpty
  · simp [hemp]
  · rcases hC : candidateLoop cfg (convId h hist)
        (analyze (pySliceLast hist cfg.contextWindowSize)) activeAds
        ([], ensureConv h hist st) with ⟨matched, st2⟩
    simp [hemp, hC]

/-- C2: whenever one of an ad's `negative_keywords` occurs among the query's
terms (in particular, whenever it equals one of the matched terms),
`_calculate_relevance` multiplies the relevance score by 0 — the score is
exactly 0, not merely reduced — and consequently, as long as the configured
relevance threshold is positive, that ad never appears in the ranked output
of `match_ads`, regardless of its other sub-scores. -/
theorem C2_negative_keyword_veto
    (cfg : Config) (h : String → Int) (analyze : List Message → Analysis)
    (activeAds : List Ad) (hist : List Message) (st : FreqState) (ad : Ad)
    (hneg : ∃ neg ∈ ad.negativeKeywords,
      ∃ t ∈ (analyze (pySliceLast hist cfg.contextWindowSize)).tokens ++
            (analyze (pySliceLast hist cfg.contextWindowSize)).entities,
        neg = pyLower t)
    (hth : 0 < cfg.relevanceThreshold) :
    calculateRelevance ad (analyze (pySliceLast hist cfg.contextWindowSize)) = 0 ∧
    ∀ m ∈ (matchAds cfg h analyze activeAds hist st).1, m.ad ≠ ad := by
  set analysis := analyze (pySliceLast hist cfg.contextWindowSize) with hana
  have hany : (ad.negativeKeywords.any fun neg =>
      (analysis.tokens ++ analysis.entities).any fun term =>
        strIn neg (pyLower term)) = true := by
    rcases hneg with ⟨neg, hnegmem, t, htmem, hEq⟩
    refine List.any_eq_true.mpr ⟨neg, hnegmem, List.any_eq_true.mpr ⟨t, htmem, ?_⟩⟩
    rw [hEq]
    exact strIn_self (pyLower t)
  have hveto : calculateRelevance ad analysis = 0 := by
    simp only [calculateRelevance]
    rw [if_pos hany]
    exact mul_zero _
  refine ⟨hveto, ?_⟩
  intro m hm hEqAd
  rw [matchAds_eq] at hm
  by_cases hemp : activeAds.isEmpty
  · simp [hemp] at hm
  · simp only [hemp, Bool.false_eq_true, if_neg] at hm
    have hmem := List.take_subset _ _ hm
    rw [mem_sortDescBy] at hmem
    rcases candidateLoop_members cfg (convId h hist) analysis activeAds [] _ m hmem with
      h0 | ⟨_, hsc, hge⟩
    · simp at h0
    · rw [hEqAd, hveto] at hsc
      rw [hsc] at hge
      exact absurd hge (not_le.mpr hth)

/-- Witness for C2 at a concrete input: the ad with negative keyword
`"cheap"` scores 0 and is absent from the output for the query whose
tokens include `"cheap"`. -/
theorem C2_negative_keyword_veto_witness :
    (∃ neg ∈ c2Ad.negativeKeywords,
      ∃ t ∈ (c2Analyze (pySliceLast [] defaultConfig.contextWindowSize)).tokens ++
            (c2Analyze (pySliceLast [] defaultConfig.contextWindowSize)).entities,
        neg = pyLower t) ∧
    (0 : ℚ) < defaultConfig.relevanceThreshold ∧
    (calculateRelevance c2Ad (c2Analyze (pySliceLast [] defaultConfig.contextWindowSize)) = 0 ∧
     ∀ m ∈ (matchAds defaultConfig (fun _ => 0) c2Analyze [c2Ad] [] []).1, m.ad ≠ c2Ad) :=
  ⟨⟨"cheap", by decide, "cheap", by decide, by decide⟩, by decide,
   C2_negative_keyword_veto defaultConfig (fun _ => 0) c2Analyze [c2Ad] [] [] c2Ad
     ⟨"cheap", by decide, "cheap", by decide, by decide⟩ (by decide)⟩

/-- C3 counterexample: after the first query of the conversation shows ad A
(so A is the immediately preceding ad shown, recorded as `last_shown_ad`),
the very next query in the same conversation shows A again — because the
candidate B is processed first and overwrites `last_shown_ad` before A's
frequency check runs.  This refutes "an ad … that was the immediately
preceding ad shown is never selected again". -/
theorem C3_counterexample :
    c3Run1.1.map (fun m => m.ad.id) = ["A"] ∧
    (lookupA c3Run1.2 "0").map FreqRecord.lastShownAd = some (some "A") ∧
    "A" ∈ c3Run2.1.map (fun m => m.ad.id) := by
  decide

/-- C3 amended: the three-impression cap with terminal suppression does hold:
once an ad's recorded count in a conversation has reached 3, `match_ads`
never returns it again for that conversation and its count never changes.
(The consecutive-repeat rule and the count-only-on-selection rule do not
hold, per the counterexample and C4.) -/
theorem C3_amended_cap_terminal
    (cfg : Config) (h : String → Int) (analyze : List Message → Analysis)
    (activeAds : List Ad) (hist : List Message) (st : FreqState) (adId : String)
    (h3 : 3 ≤ shownCount st (convId h hist) adId) :
    (∀ m ∈ (matchAds cfg h analyze activeAds hist st).1, m.ad.id ≠ adId) ∧
    shownCount (matchAds cfg h analyze activeAds hist st).2 (convId h hist) adId =
      shownCount st (convId h hist) adId := by
  have hfound : ∃ r, lookupA st (convId h hist) = some r := by
    unfold shownCount at h3
    cases hl : lookupA st (convId h hist) with
    | none => rw [hl] at h3; simp at h3
    | some r => exact ⟨r, rfl⟩
  rcases hfound with ⟨r, hr⟩
  have hens : ensureConv h hist st = st := ensureConv_of_found h hist st r hr
  rw [matchAds_eq, hens]
  by_cases hemp : activeAds.isEmpty
  · simp [hemp]
  · simp only [hemp, Bool.false_eq_true, if_neg]
    have hcap := candidateLoop_capped cfg (convId h hist)
      (analyze (pySliceLast hist cfg.contextWindowSize)) adId activeAds [] st h3
      (by intro m hm; simp at hm)
    refine ⟨?_, hcap.2⟩
    intro m hm
    have hmem := List.take_subset _ _ hm
    rw [mem_sortDescBy] at hmem
    exact hcap.1 m hmem

/-- Witness for the amended C3 at a concrete state where ad A has been shown
three times in the conversation. -/
theorem C3_amended_cap_terminal_witness :
    3 ≤ shownCount c3wSt (convId (fun _ => 0) c3Hist1) "A" ∧
    ((∀ m ∈ (matchAds defaultConfig (fun _ => 0) c3Analyze [c3AdB, c3AdA] c3Hist1 c3wSt).1,
        m.ad.id ≠ "A") ∧
     shownCount (matchAds defaultConfig (fun _ => 0) c3Analyze [c3AdB, c3AdA] c3Hist1 c3wSt).2
         (convId (fun _ => 0) c3Hist1) "A" =
       shownCount c3wSt (convId (fun _ => 0) c3Hist1) "A") :=
  ⟨by decide,
   C3_amended_cap_terminal defaultConfig (fun _ => 0) c3Analyze [c3AdB, c3AdA] c3Hist1 c3wSt "A"
     (by decide)⟩

/-- C4: with four candidates above the threshold and `max_ads_per_request = 3`,
ad D is never selected for display (it is cut by the top-N slice), yet its
`shown_count` is incremented to 1 — the frequency record is mutated once per
allowed candidate, not once per genuinely selected ad, contradicting the
claim (the code's frequency check mutates at candidacy time). -/
theorem C4_mutation_on_candidacy :
    c4Run.1.map (fun m => m.ad.id) = ["A", "B", "C"] ∧
    shownCount c4Run.2 "0" "D" = 1 := by
  decide

/-- C9: the matching pipeline returns an empty result list — never an error —
both when there are no active ads and when no active ad reaches the configured
relevance threshold (the embeddings are total functions: the blanket `except`
that returns `[]` is unreachable); likewise `ConfigDrivenAdManager`'s
selection yields no ad when every raw score falls below the 0.3 system
threshold. -/
theorem C9_empty_result_list
    (cfg : Config) (h : String → Int) (analyze : List Message → Analysis)
    (activeAds : List Ad) (hist : List Message) (st : FreqState)
    (query : String) (kms cms : List (String × List String))
    (context : Option String) (contexts : List (String × List (String × ℚ)))
    (cdAds : List ConfigDriven.CDAd)
    (hbelow : ∀ ad ∈ activeAds,
      calculateRelevance ad (analyze (pySliceLast hist cfg.contextWindowSize)) <
        cfg.relevanceThreshold)
    (hcd : ∀ p ∈ ConfigDriven.calcScoresRaw query kms cms context contexts cdAds,
      p.2.totalScore < ConfigDriven.systemThreshold) :
    (matchAds cfg h analyze [] hist st).1 = [] ∧
    (matchAds cfg h analyze activeAds hist st).1 = [] ∧
    ConfigDriven.selectTopAd
      (ConfigDriven.calculateRelevanceScores query kms cms context contexts cdAds) =
      none := by
  refine ⟨?_, ?_, ?_⟩
  · rw [matchAds_eq]
    simp
  · rw [matchAds_eq]
    by_cases hemp : activeAds.isEmpty
    · simp [hemp]
    · have hloop := candidateLoop_all_below cfg (convId h hist)
        (analyze (pySliceLast hist cfg.contextWindowSize)) activeAds []
        (ensureConv h hist st) hbelow
      simp [hemp, hloop, sortDescBy]
  · have hfil : ConfigDriven.calculateRelevanceScores query kms cms context contexts cdAds
        = [] := by
      simp only [ConfigDriven.calculateRelevanceScores]
      rw [List.filter_eq_nil_iff]
      intro p hp
      simp only [decide_eq_true_eq, not_le]
      exact hcd p hp
    rw [hfil]
    rfl

/-- Witness for C9: one active ad, a query whose analysis matches nothing of
it — outputs are empty for the no-inventory run, the below-threshold run, and
the config-driven manager with empty match dicts. -/
theorem C9_empty_result_list_witness :
    ((∀ ad ∈ [c9Ad],
      calculateRelevance ad
          (c9Analyze (pySliceLast ([] : List Message) defaultConfig.contextWindowSize)) <
        defaultConfig.relevanceThreshold) ∧
     (∀ p ∈ ConfigDriven.calcScoresRaw "tv" [] [] none [] [],
      p.2.totalScore < ConfigDriven.systemThreshold)) ∧
    ((matchAds defaultConfig (fun _ => 0) c9Analyze [] [] []).1 = [] ∧
     (matchAds defaultConfig (fun _ => 0) c9Analyze [c9Ad] [] []).1 = [] ∧
     ConfigDriven.selectTopAd
       (ConfigDriven.calculateRelevanceScores "tv" [] [] none [] []) = none) :=
  ⟨⟨by decide, by decide⟩,
   C9_empty_result_list defaultConfig (fun _ => 0) c9Analyze
     [c9Ad] [] [] "tv" [] [] none [] [] (by decide) (by decide)⟩

/-- C10: the conversation identity that keys frequency state is a function of
only the first 50 characters of the first message's content:
(1) two histories whose first messages agree on those characters get the same
key under any hash;
(2) a history whose first message has no content maps to the sentinel
`"unknown_conversation"`;
(3) `match_ads` reads and updates no frequency record other than the one at
its conversation key;
(4) for a sentinel conversation (no record stored under the sentinel key),
`match_ads` leaves the frequency state untouched and returns the
threshold-filtered candidates with no frequency capping at all (impressions
always allowed, never recorded);
(5) as long as the hash-derived keys never collide with the sentinel — true
of Python's decimal `str(hash(...))` — no run of `match_ads` ever creates a
record under the sentinel key. -/
theorem C10_conversation_key_first50
    : (∀ (h : String → Int) (m1 m2 : Message) (t1 t2 : List Message) (c1 c2 : String),
        m1.content = some c1 → m2.content = some c2 →
        strTake c1 50 = strTake c2 50 →
        convId h (m1 :: t1) = convId h (m2 :: t2)) ∧
      (∀ (h : String → Int) (m : Message) (t : List Message),
        m.content = none → convId h (m :: t) = "unknown_conversation") ∧
      (∀ (cfg : Config) (h : String → Int) (analyze : List Message → Analysis)
          (activeAds : List Ad) (hist : List Message) (st : FreqState) (c : String),
        c ≠ convId h hist →
        lookupA (matchAds cfg h analyze activeAds hist st).2 c = lookupA st c) ∧
      (∀ (cfg : Config) (h : String → Int) (analyze : List Message → Analysis)
          (activeAds : List Ad) (hist : List Message) (st : FreqState),
        (∀ m ∈ hist.head?, m.content = none) →
        lookupA st "unknown_conversation" = none →
        (matchAds cfg h analyze activeAds hist st).2 = st ∧
        (matchAds cfg h analyze activeAds hist st).1 =
          (sortDescBy MatchedAd.relevanceScore
            (thresholdCandidates cfg (analyze (pySliceLast hist cfg.contextWindowSize))
              activeAds)).take cfg.maxAdsPerRequest) ∧
      (∀ (cfg : Config) (h : String → Int) (analyze : List Message → Analysis)
          (activeAds : List Ad) (hist : List Message) (st : FreqState),
        (∀ s, toString (h s) ≠ "unknown_conversation") →
        lookupA st "unknown_conversation" = none →
        lookupA (matchAds cfg h analyze activeAds hist st).2 "unknown_conversation" = none) := by
  have hframe : ∀ (cfg : Config) (h : String → Int) (analyze : List Message → Analysis)
      (activeAds : List Ad) (hist : List Message) (st : FreqState) (c : String),
      c ≠ convId h hist →
      lookupA (matchAds cfg h analyze activeAds hist st).2 c = lookupA st c := by
    intro cfg h analyze activeAds hist st c hne
    rw [matchAds_eq]
    by_cases hemp : activeAds.isEmpty
    · simp only [hemp, if_pos rfl]
      exact ensureConv_frame h hist st c hne
    · simp only [hemp, Bool.false_eq_true, if_neg]
      exact (candidateLoop_frame cfg (convId h hist) _ c hne activeAds [] _).trans
        (ensureConv_frame h hist st c hne)
  have hunknown : ∀ (cfg : Config) (h : String → Int) (analyze : List Message → Analysis)
      (activeAds : List Ad) (hist : List Message) (st : FreqState),
      (∀ m ∈ hist.head?, m.content = none) →
      lookupA st "unknown_conversation" = none →
      (matchAds cfg h analyze activeAds hist st).2 = st ∧
      (matchAds cfg h analyze activeAds hist st).1 =
        (sortDescBy MatchedAd.relevanceScore
          (thresholdCandidates cfg (analyze (pySliceLast hist cfg.contextWindowSize))
            activeAds)).take cfg.maxAdsPerRequest := by
    intro cfg h analyze activeAds hist st hno hnone
    obtain ⟨hens, hcid⟩ := ensureConv_of_nocontent h hist st hno
    rw [matchAds_eq, hens]
    by_cases hemp : activeAds.isEmpty
    · rcases List.isEmpty_iff.mp hemp with rfl
      simp [hemp, thresholdCandidates, sortDescBy]
    · have hloop := candidateLoop_unknown cfg (convId h hist)
        (analyze (pySliceLast hist cfg.contextWindowSize)) activeAds [] st
        (by rw [hcid]; exact hnone)
      simp [hemp, hloop]
  refine ⟨?_, ?_, hframe, hunknown, ?_⟩
  · intro h m1 m2 t1 t2 c1 c2 h1 h2 heq
    simp [convId, h1, h2, heq]
  · intro h m t hc
    simp [convId, hc]
  · intro cfg h analyze activeAds hist st hu hnone
    cases hist with
    | nil =>
      rw [(hunknown cfg h analyze activeAds [] st (by simp) hnone).1]
      exact hnone
    | cons m t =>
      cases hc : m.content with
      | none =>
        rw [(hunknown cfg h analyze activeAds (m :: t) st (by simpa using hc) hnone).1]
        exact hnone
      | some c =>
        have hcid : convId h (m :: t) = toString (h (strTake c 50)) := by
          simp [convId, hc]
        have hne : "unknown_conversation" ≠ convId h (m :: t) := by
          rw [hcid]
          exact fun he => hu (strTake c 50) he.symm
        rw [hframe cfg h analyze activeAds (m :: t) st "unknown_conversation" hne]
        exact hnone

/-- Witness for C10 at concrete inputs: the key ignores everything past the
first message; a missing `content` yields the sentinel key, for which the
frequency state is left untouched. -/
theorem C10_conversation_key_first50_witness :
    convId (fun _ => 0) c3Hist1 = convId (fun _ => 0) c3Hist2 ∧
    convId (fun _ => 0) c10HistNoContent = "unknown_conversation" ∧
    lookupA (matchAds defaultConfig (fun _ => 0) c3Analyze [c3AdB, c3AdA] c3Hist1 []).2
        "absent_key" = lookupA ([] : FreqState) "absent_key" ∧
    (matchAds defaultConfig (fun _ => 0) c3Analyze [c3AdB, c3AdA] c10HistNoContent []).2 = [] ∧
    lookupA (matchAds defaultConfig (fun _ => 0) c3Analyze [c3AdB, c3AdA] c3Hist1 []).2
        "unknown_conversation" = none :=
  ⟨C10_conversation_key_first50.1 (fun _ => 0) ⟨"user", some "hello"⟩ ⟨"user", some "hello"⟩
      [] [⟨"assistant", some "hi"⟩, ⟨"user", some "again"⟩] "hello" "hello" rfl rfl rfl,
   C10_conversation_key_first50.2.1 (fun _ => 0) ⟨"user", none⟩ [] rfl,
   C10_conversation_key_first50.2.2.1 defaultConfig (fun _ => 0) c3Analyze [c3AdB, c3AdA]
      c3Hist1 [] "absent_key" (by decide),
   (C10_conversation_key_first50.2.2.2.1 defaultConfig (fun _ => 0) c3Analyze [c3AdB, c3AdA]
      c10HistNoContent [] (by decide) rfl).1,
   C10_conversation_key_first50.2.2.2.2 defaultConfig (fun _ => 0) c3Analyze [c3AdB, c3AdA]
      c3Hist1 []
      (fun s => (by decide : toString (0 : ℤ) ≠ "unknown_conversation")) rfl⟩

end AdMatcher

namespace ConfigDriven

/-- C6: every decay-then-max merge of one context update satisfies
`new_stored ≥ old_stored * decay_factor` (decay 0.8 for topics and intents,
0.9 for preferences), and the history fold `stored*0.9 + new*0.1` satisfies
the same bound with factor 0.9, whenever the stored score is at most 1 (and,
for the fold, the incoming score is nonnegative — pattern scores always are). -/
theorem C6_decay_then_max_monotone :
    (∀ s n : ℚ, s ≤ 1 → s * (8/10) ≤ topicDecayMerge s n) ∧
    (∀ s n : ℚ, s ≤ 1 → s * (9/10) ≤ prefDecayMerge s n) ∧
    (∀ s n : ℚ, s ≤ 1 → s * (8/10) ≤ intentDecayMerge s n) ∧
    (∀ s n : ℚ, s ≤ 1 → 0 ≤ n → s * (9/10) ≤ historyFoldMerge s n) := by
  refine ⟨?_, ?_, ?_, ?_⟩
  · intro s n hs
    rw [topicDecayMerge, pyMin_eq, pyMax_eq]
    exact le_min (by nlinarith) (le_max_left _ _)
  · intro s n hs
    rw [prefDecayMerge, pyMin_eq, pyMax_eq]
    exact le_min (by nlinarith) (le_max_left _ _)
  · intro s n hs
    rw [intentDecayMerge, pyMin_eq, pyMax_eq]
    exact le_min (by nlinarith) (le_max_right _ _)
  · intro s n hs hn
    rw [historyFoldMerge, pyMin_eq]
    exact le_min (by nlinarith) (by nlinarith)

/-- Witness for C6 at concrete scores `stored = 1/2`, `new = 3/4`. -/
theorem C6_decay_then_max_monotone_witness :
    ((1/2 : ℚ) ≤ 1 ∧ (1/2 : ℚ) * (8/10) ≤ topicDecayMerge (1/2) (3/4)) ∧
    ((1/2 : ℚ) ≤ 1 ∧ (1/2 : ℚ) * (9/10) ≤ prefDecayMerge (1/2) (3/4)) ∧
    ((1/2 : ℚ) ≤ 1 ∧ (1/2 : ℚ) * (8/10) ≤ intentDecayMerge (1/2) (3/4)) ∧
    ((1/2 : ℚ) ≤ 1 ∧ (0 : ℚ) ≤ 3/4 ∧
      (1/2 : ℚ) * (9/10) ≤ historyFoldMerge (1/2) (3/4)) :=
  ⟨⟨by norm_num, C6_decay_then_max_monotone.1 (1/2) (3/4) (by norm_num)⟩,
   ⟨by norm_num, C6_decay_then_max_monotone.2.1 (1/2) (3/4) (by norm_num)⟩,
   ⟨by norm_num, C6_decay_then_max_monotone.2.2.1 (1/2) (3/4) (by norm_num)⟩,
   ⟨by norm_num, by norm_num,
    C6_decay_then_max_monotone.2.2.2 (1/2) (3/4) (by norm_num) (by norm_num)⟩⟩

/-- C5 counterexample: for the query `"tv deals"` and an ad with default
weights, one matched keyword and no matched category, the code's total is
`keyword_score*0.4 + direct_term_score*0.3 + intent*0.3 = 0.7` (the
direct-term score 1.0 is weighted by the CATEGORY weight), while the claimed
formula `keyword*w.keyword + category*w.category + intent*w.intent` gives
`0.4`.  The claim's formula disagrees with the code at this input. -/
theorem C5_counterexample :
    (lookupA c5Run "X").map ScoredEntry.totalScore = some (7/10) ∧
    (lookupA c5Run "X").map ScoredEntry.keywordScore = some 1 ∧
    (lookupA c5Run "X").map ScoredEntry.matchedCategories = some [] ∧
    specCombinedScore defaultWeights 1 0 0 false = 2/5 ∧
    (7/10 : ℚ) ≠ 2/5 := by
  decide

theorem pyMin_one_le_one (x : ℚ) : pyMin 1 x ≤ 1 := by
  rw [pyMin_eq]
  exact min_le_left _ _

theorem pyMin_one_nonneg (x : ℚ) (hx : 0 ≤ x) : 0 ≤ pyMin 1 x := by
  rw [pyMin_eq]
  exact le_min (by norm_num) hx

theorem pyMax_zero_eq (x : ℚ) (hx : 0 ≤ x) : pyMax 0 x = x := by
  rw [pyMax_eq]
  exact max_eq_right hx

/-- C5 amended: in the keyword pass the combined score follows the spec's
combine-boost-clamp shape, but with the DIRECT-TERM score (always 0.8 or
1.0) standing where the spec puts the category score: the code total equals
`specCombinedScore w keyword_score direct_term_score intent_score boost`
whenever the weights and the intent score are nonnegative. -/
theorem C5_amended_direct_term_weighting
    (query : String) (ad : CDAd) (mks : List String) (isc : ℚ)
    (hwk : 0 ≤ (weightsOf ad).keywordMatch)
    (hwc : 0 ≤ (weightsOf ad).categoryMatch)
    (hwi : 0 ≤ (weightsOf ad).intentMatch)
    (hisc : 0 ≤ isc) :
    (keywordEntry query ad mks isc).totalScore =
      specCombinedScore (weightsOf ad)
        (keywordEntry query ad mks isc).keywordScore
        (keywordEntry query ad mks isc).directTermScore
        isc (decide (1 < mks.length)) ∧
    ((keywordEntry query ad mks isc).directTermScore = 8/10 ∨
     (keywordEntry query ad mks isc).directTermScore = 1) := by
  have hkws : (0:ℚ) ≤ (keywordEntry query ad mks isc).keywordScore := by
    simp only [keywordEntry]
    apply pyMin_one_nonneg
    apply mul_nonneg
    · exact div_nonneg (by positivity) (by positivity)
    · split <;> norm_num
  have hdts : (keywordEntry query ad mks isc).directTermScore = 8/10 ∨
      (keywordEntry query ad mks isc).directTermScore = 1 := by
    simp only [keywordEntry]
    split
    · exact Or.inr rfl
    · exact Or.inl rfl
  have hdts0 : (0:ℚ) ≤ (keywordEntry query ad mks isc).directTermScore := by
    rcases hdts with h | h <;> rw [h] <;> norm_num
  refine ⟨?_, hdts⟩
  have hsum : (0:ℚ) ≤ (keywordEntry query ad mks isc).keywordScore * (weightsOf ad).keywordMatch +
      (keywordEntry query ad mks isc).directTermScore * (weightsOf ad).categoryMatch +
      isc * (weightsOf ad).intentMatch := by
    have := mul_nonneg hkws hwk
    have := mul_nonneg hdts0 hwc
    have := mul_nonneg hisc hwi
    linarith
  show (keywordEntry query ad mks isc).totalScore = _
  conv_lhs => simp only [keywordEntry]
  simp only [specCombinedScore, decide_eq_true_eq]
  rw [pyMax_zero_eq]
  · congr 1
  · apply pyMin_one_nonneg
    split
    · nlinarith [hsum]
    · simp only [keywordEntry] at hsum
      exact hsum

/-- Witness for the amended C5 at the counterexample's input. -/
theorem C5_amended_direct_term_weighting_witness :
    (0 ≤ (weightsOf c5Ad).keywordMatch ∧ 0 ≤ (weightsOf c5Ad).categoryMatch ∧
     0 ≤ (weightsOf c5Ad).intentMatch ∧ (0:ℚ) ≤ 0) ∧
    ((keywordEntry "tv deals" c5Ad ["tv"] 0).totalScore =
      specCombinedScore (weightsOf c5Ad)
        (keywordEntry "tv deals" c5Ad ["tv"] 0).keywordScore
        (keywordEntry "tv deals" c5Ad ["tv"] 0).directTermScore
        0 (decide (1 < (["tv"] : List String).length)) ∧
     ((keywordEntry "tv deals" c5Ad ["tv"] 0).directTermScore = 8/10 ∨
      (keywordEntry "tv deals" c5Ad ["tv"] 0).directTermScore = 1)) :=
  ⟨⟨by decide, by decide, by decide, le_refl 0⟩,
   C5_amended_direct_term_weighting "tv deals" c5Ad ["tv"] 0
     (by decide) (by decide) (by decide) (le_refl 0)⟩

end ConfigDriven

theorem mem_setA {β : Type} (l : List (String × β)) (k : String) (v : β)
    (x : String × β) (hx : x ∈ setA l k v) : x = (k, v) ∨ x ∈ l := by
  induction l with
  | nil => simpa [setA] using hx
  | cons hd tl ih =>
    obtain ⟨k₀, v₀⟩ := hd
    by_cases h : k₀ = k
    · simp only [setA, if_pos h, List.mem_cons] at hx
      rcases hx with rfl | hx
      · exact Or.inl rfl
      · exact Or.inr (List.mem_cons_of_mem _ hx)
    · simp only [setA, if_neg h, List.mem_cons] at hx
      rcases hx with rfl | hx
      · exact Or.inr (List.mem_cons_self _ _)
      · rcases ih hx with h1 | h1
        · exact Or.inl h1
        · exact Or.inr (List.mem_cons_of_mem _ h1)

theorem lookupA_mem {β : Type} (l : List (String × β)) (k : String) (v : β)
    (h : lookupA l k = some v) : (k, v) ∈ l := by
  induction l with
  | nil => simp [lookupA] at h
  | cons hd tl ih =>
    obtain ⟨k₀, v₀⟩ := hd
    by_cases hk : k₀ = k
    · subst hk
      simp [lookupA] at h
      rw [← h]
      exact List.mem_cons_self _ _
    · simp only [lookupA, if_neg hk] at h
      exact List.mem_cons_of_mem _ (ih h)

namespace ConfigDriven

theorem keywordEntry_in_range (query : String) (ad : CDAd) (mks : List String)
    (isc : ℚ) (hwk : 0 ≤ (weightsOf ad).keywordMatch)
    (hwc : 0 ≤ (weightsOf ad).categoryMatch)
    (hwi : 0 ≤ (weightsOf ad).intentMatch) (hisc : 0 ≤ isc) :
    EntryInRange (keywordEntry query ad mks isc) := by
  constructor
  · simp only [keywordEntry]
    apply pyMin_one_nonneg
    have hkws : (0:ℚ) ≤ pyMin 1
        (((mks.length : ℚ) / ((natMax 1 (natMin ad.keywords.length 5) : Nat) : ℚ)) *
          (if mks.any (fun kw => strIn (pyLower kw) (pyLower query)) = true
            then (3/2 : ℚ) else 1)) := by
      apply pyMin_one_nonneg
      apply mul_nonneg
      · exact div_nonneg (by positivity) (by positivity)
      · split <;> norm_num
    have hdts : (0:ℚ) ≤ (if mks.any (fun kw => strIn kw query) = true
        then (1 : ℚ) else 8/10) := by
      split <;> norm_num
    have hsum : (0:ℚ) ≤ pyMin 1
          (((mks.length : ℚ) / ((natMax 1 (natMin ad.keywords.length 5) : Nat) : ℚ)) *
            (if mks.any (fun kw => strIn (pyLower kw) (pyLower query)) = true
              then (3/2 : ℚ) else 1)) * (weightsOf ad).keywordMatch +
        (if mks.any (fun kw => strIn kw query) = true then (1 : ℚ) else 8/10) *
          (weightsOf ad).categoryMatch +
        isc * (weightsOf ad).intentMatch := by
      have h1 := mul_nonneg hkws hwk
      have h2 := mul_nonneg hdts hwc
      have h3 := mul_nonneg hisc hwi
      linarith
    split
    · nlinarith [hsum]
    · exact hsum
  · simp only [keywordEntry]
    exact pyMin_one_le_one _

theorem categoryScoreOf_nonneg (ad : CDAd) (mcs : List String) :
    0 ≤ categoryScoreOf ad mcs := by
  simp only [categoryScoreOf]
  split
  · apply pyMin_one_nonneg
    exact div_nonneg (by positivity) (by positivity)
  · exact le_refl 0

theorem keywordPass_inner_in_range (query : String) (isc : ℚ) (k : String)
    (mks : List String) (hisc : 0 ≤ isc) :
    ∀ (ads : List CDAd), (∀ ad ∈ ads, 0 ≤ (weightsOf ad).keywordMatch ∧
      0 ≤ (weightsOf ad).categoryMatch ∧ 0 ≤ (weightsOf ad).intentMatch) →
    ∀ (acc : List (String × ScoredEntry)), (∀ p ∈ acc, EntryInRange p.2) →
    ∀ p ∈ ads.foldl (fun acc2 ad =>
        if ad.adId = k then setA acc2 k (keywordEntry query ad mks isc) else acc2) acc,
      EntryInRange p.2 := by
  intro ads
  induction ads with
  | nil => intro _ acc hacc p hp; exact hacc p hp
  | cons ad rest ih =>
    intro hW acc hacc p hp
    simp only [List.foldl_cons] at hp
    have hWrest : ∀ a ∈ rest, 0 ≤ (weightsOf a).keywordMatch ∧
        0 ≤ (weightsOf a).categoryMatch ∧ 0 ≤ (weightsOf a).intentMatch :=
      fun a ha => hW a (List.mem_cons_of_mem _ ha)
    by_cases had : ad.adId = k
    · rw [if_pos had] at hp
      refine ih hWrest _ ?_ p hp
      intro q hq
      rcases mem_setA _ _ _ _ hq with rfl | hq'
      · obtain ⟨h1, h2, h3⟩ := hW ad (List.mem_cons_self _ _)
        exact keywordEntry_in_range query ad mks isc h1 h2 h3 hisc
      · exact hacc q hq'
    · rw [if_neg had] at hp
      exact ih hWrest acc hacc p hp

theorem categoryPass_inner_in_range (isc : ℚ) (k : String)
    (mcs : List String) (hisc : 0 ≤ isc) :
    ∀ (ads : List CDAd), (∀ ad ∈ ads, 0 ≤ (weightsOf ad).keywordMatch ∧
      0 ≤ (weightsOf ad).categoryMatch ∧ 0 ≤ (weightsOf ad).intentMatch) →
    ∀ (acc : List (String × ScoredEntry)), (∀ p ∈ acc, EntryInRange p.2) →
    ∀ p ∈ ads.foldl (fun acc2 ad =>
        if ad.adId = k then
          let w := weightsOf ad
          let cs := categoryScoreOf ad mcs
          let total := cs * w.categoryMatch + isc * w.intentMatch
          match lookupA acc2 k with
          | some entry =>
            setA acc2 k { entry with
              categoryScore := some cs,
              matchedCategories := mcs,
              intentScore := isc,
              totalScore := pyMin 1 (entry.totalScore + total) }
          | none =>
            setA acc2 k ⟨pyMin 1 total, 0, 0, isc, some cs, [], mcs⟩
        else acc2) acc,
      EntryInRange p.2 := by
  intro ads
  induction ads with
  | nil => intro _ acc hacc p hp; exact hacc p hp
  | cons ad rest ih =>
    intro hW acc hacc p hp
    simp only [List.foldl_cons] at hp
    have hWrest : ∀ a ∈ rest, 0 ≤ (weightsOf a).keywordMatch ∧
        0 ≤ (weightsOf a).categoryMatch ∧ 0 ≤ (weightsOf a).intentMatch :=
      fun a ha => hW a (List.mem_cons_of_mem _ ha)
    obtain ⟨hw1, hw2, hw3⟩ := hW ad (List.mem_cons_self _ _)
    have htotal : (0:ℚ) ≤ categoryScoreOf ad mcs * (weightsOf ad).categoryMatch +
        isc * (weightsOf ad).intentMatch := by
      have := mul_nonneg (categoryScoreOf_nonneg ad mcs) hw2
      have := mul_nonneg hisc hw3
      linarith
    by_cases had : ad.adId = k
    · rw [if_pos had] at hp
      cases hl : lookupA acc k with
      | some entry =>
        rw [hl] at hp
        refine ih hWrest _ ?_ p hp
        intro q hq
        rcases mem_setA _ _ _ _ hq with rfl | hq'
        · have hentry : EntryInRange entry := hacc (k, entry) (lookupA_mem acc k entry hl)
          exact ⟨pyMin_one_nonneg _ (by obtain ⟨he1, _⟩ := hentry; linarith),
                 pyMin_one_le_one _⟩
        · exact hacc q hq'
      | none =>
        rw [hl] at hp
        refine ih hWrest _ ?_ p hp
        intro q hq
        rcases mem_setA _ _ _ _ hq with rfl | hq'
        · exact ⟨pyMin_one_nonneg _ htotal, pyMin_one_le_one _⟩
        · exact hacc q hq'
    · rw [if_neg had] at hp
      exact ih hWrest acc hacc p hp

theorem calcScoresRaw_in_range (query : String)
    (keywordMatches categoryMatches : List (String × List String))
    (context : Option String) (contexts : List (String × List (String × ℚ)))
    (ads : List CDAd)
    (hW : ∀ ad ∈ ads, 0 ≤ (weightsOf ad).keywordMatch ∧
      0 ≤ (weightsOf ad).categoryMatch ∧ 0 ≤ (weightsOf ad).intentMatch)
    (hisc : 0 ≤ intentScoreFor contexts context) :
    ∀ p ∈ calcScoresRaw query keywordMatches categoryMatches context contexts ads,
      EntryInRange p.2 := by
  unfold calcScoresRaw
  have hstep1 : ∀ (kms : List (String × List String)) (acc : List (String × ScoredEntry)),
      (∀ p ∈ acc, EntryInRange p.2) →
      ∀ p ∈ kms.foldl (fun acc (p : String × List String) =>
          ads.foldl (fun acc2 ad =>
            if ad.adId = p.1 then
              setA acc2 p.1 (keywordEntry query ad p.2 (intentScoreFor contexts context))
            else acc2) acc) acc,
        EntryInRange p.2 := by
    intro kms
    induction kms with
    | nil => intro acc hacc p hp; exact hacc p hp
    | cons km rest ih =>
      intro acc hacc p hp
      simp only [List.foldl_cons] at hp
      exact ih _ (keywordPass_inner_in_range query _ km.1 km.2 hisc ads hW acc hacc) p hp
  have hstep2 : ∀ (cms : List (String × List String)) (acc : List (String × ScoredEntry)),
      (∀ p ∈ acc, EntryInRange p.2) →
      ∀ p ∈ cms.foldl (fun acc (p : String × List String) =>
          ads.foldl (fun acc2 ad =>
            if ad.adId = p.1 then
              let w := weightsOf ad
              let cs := categoryScoreOf ad p.2
              let total := cs * w.categoryMatch + (intentScoreFor contexts context) * w.intentMatch
              match lookupA acc2 p.1 with
              | some entry =>
                setA acc2 p.1 { entry with
                  categoryScore := some cs,
                  matchedCategories := p.2,
                  intentScore := (intentScoreFor contexts context),
                  totalScore := pyMin 1 (entry.totalScore + total) }
              | none =>
                setA acc2 p.1 ⟨pyMin 1 total, 0, 0, (intentScoreFor contexts context),
                  some cs, [], p.2⟩
            else acc2) acc) acc,
        EntryInRange p.2 := by
    intro cms
    induction cms with
    | nil => intro acc hacc p hp; exact hacc p hp
    | cons cm rest ih =>
      intro acc hacc p hp
      simp only [List.foldl_cons] at hp
      exact ih _ (categoryPass_inner_in_range _ cm.1 cm.2 hisc ads hW acc hacc) p hp
  intro p hp
  exact hstep2 categoryMatches _ (hstep1 keywordMatches [] (by simp)) p hp

theorem calculateRelevanceScores_in_range (query : String)
    (keywordMatches categoryMatches : List (String × List String))
    (context : Option String) (contexts : List (String × List (String × ℚ)))
    (ads : List CDAd)
    (hW : ∀ ad ∈ ads, 0 ≤ (weightsOf ad).keywordMatch ∧
      0 ≤ (weightsOf ad).categoryMatch ∧ 0 ≤ (weightsOf ad).intentMatch)
    (hisc : 0 ≤ intentScoreFor contexts context) :
    ∀ p ∈ calculateRelevanceScores query keywordMatches categoryMatches context contexts ads,
      0 ≤ p.2.totalScore ∧ p.2.totalScore ≤ 1 := by
  intro p hp
  unfold calculateRelevanceScores at hp
  exact calcScoresRaw_in_range query keywordMatches categoryMatches context contexts ads
    hW hisc p (List.mem_of_mem_filter hp)

end ConfigDriven

theorem le_pyMax_left (a b : ℚ) : a ≤ pyMax a b := by
  rw [pyMax_eq]
  exact le_max_left a b

theorem pyMax_nonneg_left (a b : ℚ) (ha : 0 ≤ a) : 0 ≤ pyMax a b :=
  le_trans ha (le_pyMax_left a b)

theorem pyMin_nonneg (a b : ℚ) (ha : 0 ≤ a) (hb : 0 ≤ b) : 0 ≤ pyMin a b := by
  rw [pyMin_eq]
  exact le_min ha hb

theorem foldl_ge_init {α : Type} (f : ℚ → α → ℚ) (hf : ∀ acc x, acc ≤ f acc x) :
    ∀ (l : List α) (acc : ℚ), acc ≤ l.foldl f acc := by
  intro l
  induction l with
  | nil => intro acc; exact le_refl acc
  | cons hd tl ih =>
    intro acc
    exact le_trans (hf acc hd) (ih (f acc hd))

namespace Delivery

theorem kwFuzzy_nonneg (ratio : String → String → ℚ) (query : String)
    (keywords : List String) : 0 ≤ kwFuzzy ratio query keywords := by
  unfold kwFuzzy
  refine foldl_ge_init _ ?_ _ 0
  intro acc q
  split
  · exact le_refl acc
  · refine foldl_ge_init _ ?_ _ acc
    intro acc2 k
    split
    · linarith
    · exact le_refl acc2

theorem calcKeywordMatch_nonneg (ratio : String → String → ℚ) (query : String)
    (keywords : List String) : 0 ≤ calcKeywordMatch ratio query keywords := by
  unfold calcKeywordMatch
  split
  · exact le_refl 0
  · exact add_nonneg (div_nonneg (by positivity) (by positivity))
      (mul_nonneg (div_nonneg (kwFuzzy_nonneg ratio query keywords) (by positivity))
        (by norm_num))

theorem catMatchLoop_nonneg (ratio : String → String → ℚ) (query : String)
    (queryTerms : List String) :
    ∀ (cats : List String) (best : ℚ), 0 ≤ best →
      0 ≤ catMatchLoop ratio query queryTerms cats best := by
  intro cats
  induction cats with
  | nil => intro best hb; exact hb
  | cons c rest ih =>
    intro best hb
    simp only [catMatchLoop]
    split
    · norm_num
    · apply ih
      apply pyMax_nonneg_left
      split
      · exact hb
      · exact pyMax_nonneg_left _ _ hb

theorem calcCategoryMatch_nonneg (ratio : String → String → ℚ) (query : String)
    (categories : List String) : 0 ≤ calcCategoryMatch ratio query categories := by
  unfold calcCategoryMatch
  split
  · exact le_refl 0
  · exact catMatchLoop_nonneg ratio query _ categories 0 (le_refl 0)

theorem calcSemanticRelevance_nonneg (query : String) (ad : DAd) :
    0 ≤ calcSemanticRelevance query ad := by
  simp only [calcSemanticRelevance]
  split
  · exact le_refl 0
  · apply ConfigDriven.pyMin_one_nonneg
    apply add_nonneg
    · exact div_nonneg (by positivity) (by positivity)
    · split
      · exact le_refl 0
      · positivity

theorem calcDirectTermMatch_nonneg (query : String) (ad : DAd) :
    0 ≤ calcDirectTermMatch query ad := by
  unfold calcDirectTermMatch
  apply pyMin_nonneg _ _ ?_ (by norm_num)
  refine le_trans ?_ (foldl_ge_init _ ?_ _ _)
  · split <;> split <;> norm_num
  · intro acc p
    split
    · linarith
    · exact le_refl acc

theorem adBoost_nonneg (query : String) (ad : DAd) (boostedAdId : Option String) :
    0 ≤ adBoost query ad boostedAdId := by
  simp only [adBoost]
  split <;> split <;> split <;> split <;> norm_num

end Delivery

/-- C1 counterexample: for the query `"running shoes"` and an inventory whose
only ad has id `"ad_101"` (the fallback boosted id) and a keyword containing
`"shoe"`, `AdDeliveryManager.get_relevant_ad` adds a boost of
`0.7 + 0.4 = 1.1` AFTER the weighted sub-score sum, with no clamp — the
total relevance score exceeds 1, refuting `0 ≤ total_score ≤ 1` for the
boosted scoring path. -/
theorem C1_counterexample :
    1 < Delivery.deliveryTotalScore Delivery.ratcliffRatio "running shoes" [c1Ad] c1Ad := by
  simp only [Delivery.deliveryTotalScore]
  have h1 := Delivery.calcKeywordMatch_nonneg Delivery.ratcliffRatio
    (Delivery.expandQuery Delivery.keywordMappings (pyLower "running shoes")) c1Ad.keywords
  have h2 := Delivery.calcCategoryMatch_nonneg Delivery.ratcliffRatio
    (Delivery.expandQuery Delivery.keywordMappings (pyLower "running shoes")) c1Ad.categories
  have h3 := Delivery.calcSemanticRelevance_nonneg (pyLower "running shoes") c1Ad
  have h4 := Delivery.calcDirectTermMatch_nonneg (pyLower "running shoes") c1Ad
  have h5 : Delivery.adBoost (pyLower "running shoes") c1Ad
      (Delivery.computeBoostedAdId (pyLower "running shoes") [c1Ad]) = 11/10 := by decide
  rw [h5]
  linarith

theorem deliveryTotalScore_nonneg (ratio : String → String → ℚ) (query : String)
    (ads : List Delivery.DAd) (ad : Delivery.DAd) :
    0 ≤ Delivery.deliveryTotalScore ratio query ads ad := by
  simp only [Delivery.deliveryTotalScore]
  have h1 := Delivery.calcKeywordMatch_nonneg ratio
    (Delivery.expandQuery Delivery.keywordMappings (pyLower query)) ad.keywords
  have h2 := Delivery.calcCategoryMatch_nonneg ratio
    (Delivery.expandQuery Delivery.keywordMappings (pyLower query)) ad.categories
  have h3 := Delivery.calcSemanticRelevance_nonneg (pyLower query) ad
  have h4 := Delivery.calcDirectTermMatch_nonneg (pyLower query) ad
  have h5 := Delivery.adBoost_nonneg (pyLower query) ad
    (Delivery.computeBoostedAdId (pyLower query) ads)
  linarith

/-- C1 amended: the bound `0 ≤ total_score ≤ 1` holds for every entry of
`ConfigDrivenAdManager._calculate_relevance_scores` (whenever the ad weights
and the tracked intent scores are nonnegative, as the taxonomy guarantees);
in `AdDeliveryManager.get_relevant_ad` the score is still nonnegative for
every ad and query, but the additive query-type/brand boosts can push it
above 1 (see the counterexample). -/
theorem C1_amended_bounds :
    (∀ (query : String) (kms cms : List (String × List String))
        (context : Option String) (contexts : List (String × List (String × ℚ)))
        (ads : List ConfigDriven.CDAd),
      (∀ ad ∈ ads, 0 ≤ (ConfigDriven.weightsOf ad).keywordMatch ∧
        0 ≤ (ConfigDriven.weightsOf ad).categoryMatch ∧
        0 ≤ (ConfigDriven.weightsOf ad).intentMatch) →
      0 ≤ ConfigDriven.intentScoreFor contexts context →
      ∀ p ∈ ConfigDriven.calculateRelevanceScores query kms cms context contexts ads,
        0 ≤ p.2.totalScore ∧ p.2.totalScore ≤ 1) ∧
    (∀ (ratio : String → String → ℚ) (query : String) (ads : List Delivery.DAd)
        (ad : Delivery.DAd), 0 ≤ Delivery.deliveryTotalScore ratio query ads ad) :=
  ⟨fun query kms cms context contexts ads hW hisc =>
    ConfigDriven.calculateRelevanceScores_in_range query kms cms context contexts ads hW hisc,
   deliveryTotalScore_nonneg⟩

/-- Witness for the amended C1 at concrete inputs on both scoring paths. -/
theorem C1_amended_bounds_witness :
    ((∀ ad ∈ [c1CdAd], 0 ≤ (ConfigDriven.weightsOf ad).keywordMatch ∧
        0 ≤ (ConfigDriven.weightsOf ad).categoryMatch ∧
        0 ≤ (ConfigDriven.weightsOf ad).intentMatch) ∧
     0 ≤ ConfigDriven.intentScoreFor [] none ∧
     (∀ p ∈ ConfigDriven.calculateRelevanceScores "tv" [("Y", ["tv"])] [] none [] [c1CdAd],
        0 ≤ p.2.totalScore ∧ p.2.totalScore ≤ 1)) ∧
    0 ≤ Delivery.deliveryTotalScore Delivery.ratcliffRatio "hello" [] c1DAd :=
  ⟨⟨by decide, by decide,
    C1_amended_bounds.1 "tv" [("Y", ["tv"])] [] none [] [c1CdAd] (by decide) (by decide)⟩,
   C1_amended_bounds.2 Delivery.ratcliffRatio "hello" [] c1DAd⟩

namespace Ranking

theorem rankLoop_members (cfg : RankConfig) (userCtx : Option UserContext)
    (jit : Nat → ℚ) :
    ∀ (l : List RankMatch) (i : Nat) (x : RankedAd), x ∈ rankLoop cfg userCtx jit i l →
    ∃ j m, m ∈ l ∧
      x = ⟨m.ad, m.relevanceScore,
        combinedScore cfg userCtx m + jit j * combinedScore cfg userCtx m⟩ := by
  intro l
  induction l with
  | nil => intro i x hx; simp [rankLoop] at hx
  | cons m rest ih =>
    intro i x hx
    simp only [rankLoop, List.mem_cons] at hx
    rcases hx with rfl | hx
    · exact ⟨i, m, List.mem_cons_self _ _, rfl⟩
    · rcases ih (i + 1) x hx with ⟨j, m', hm', hx'⟩
      exact ⟨j, m', List.mem_cons_of_mem _ hm', hx'⟩

theorem normalizeBid_nonneg (cfg : RankConfig) (bid : ℚ) (hb : 0 ≤ bid) :
    0 ≤ normalizeBid cfg bid := by
  unfold normalizeBid
  split
  · exact le_refl 0
  · exact pyMin_nonneg _ _ (by norm_num) (div_nonneg hb (by linarith [not_le.mp (by assumption)]))

theorem ctrFactor_nonneg (cfg : RankConfig) (ad : RAd) (hc : 0 ≤ ad.ctr) :
    0 ≤ ctrFactor cfg ad := by
  unfold ctrFactor
  split
  · exact le_refl 0
  · exact pyMin_nonneg _ _ (by norm_num) (div_nonneg hc (by linarith [not_le.mp (by assumption)]))

theorem budgetFactor_nonneg (ad : RAd) : 0 ≤ budgetFactor ad := by
  unfold budgetFactor
  split
  · exact le_refl 0
  · exact pyMax_nonneg_left _ _ (le_refl 0)

theorem interestScore_nonneg (ta : TargetAudience) (ctx : UserContext) :
    0 ≤ interestScore ta ctx := by
  unfold interestScore
  rcases ta.interests with _ | ai <;> rcases ctx.interests with _ | ui
  all_goals try exact le_refl (0:ℚ)
  all_goals repeat' split
  all_goals positivity

theorem ageScore_nonneg (adDemo : TargetDemo) (userDemo : UserDemo) :
    0 ≤ ageScore adDemo userDemo := by
  unfold ageScore
  rcases adDemo.ageMin with _ | amin <;> rcases adDemo.ageMax with _ | amax <;>
    rcases userDemo.age with _ | age
  all_goals try exact le_refl (0:ℚ)
  all_goals repeat' split
  all_goals norm_num

theorem locScore_nonneg (adDemo : TargetDemo) (userDemo : UserDemo) :
    0 ≤ locScore adDemo userDemo := by
  unfold locScore
  rcases adDemo.location with _ | adLoc <;> rcases userDemo.location with _ | userLoc
  all_goals try exact le_refl (0:ℚ)
  all_goals repeat' split
  all_goals norm_num

theorem demoScore_nonneg (ta : TargetAudience) (ctx : UserContext) :
    0 ≤ demoScore ta ctx := by
  unfold demoScore
  rcases ta.demographics with _ | adDemo
  · exact le_refl 0
  rcases ctx.demographics with _ | userDemo
  · exact le_refl 0
  exact add_nonneg (ageScore_nonneg _ _) (locScore_nonneg _ _)

theorem targetingFactor_nonneg (ad : RAd) (userCtx : Option UserContext) :
    0 ≤ targetingFactor ad userCtx := by
  unfold targetingFactor
  rcases userCtx with _ | ctx
  · norm_num
  rcases ad.targetAudience with _ | ta
  · norm_num
  exact ConfigDriven.pyMin_one_nonneg _
    (add_nonneg (interestScore_nonneg _ _) (demoScore_nonneg _ _))

/-- C7: with the default weights, every row of `rank_ads`' output carries
`final = combined + r·combined` where `combined` is exactly the weighted sum
`0.40·relevance + 0.35·bid + 0.15·ctr + 0.05·budget + 0.05·targeting` of its
source candidate and `r` is that candidate's uniform draw from `[0, 0.01)`;
the jitter `r·combined` is strictly less than 1% of the combined score
(positive relevance and nonnegative bid/ctr make `combined` positive), and
the returned list is sorted descending by final score. -/
theorem C7_ranking_weighted_sum_and_jitter
    (matched : List RankMatch) (userCtx : Option UserContext) (jit : Nat → ℚ)
    (hjit : ∀ i, 0 ≤ jit i ∧ jit i < 1/100)
    (hpos : ∀ m ∈ matched, 0 < m.relevanceScore ∧ 0 ≤ m.ad.bidAmount ∧ 0 ≤ m.ad.ctr) :
    (∀ x ∈ rankAds defaultRankConfig matched userCtx jit,
      ∃ j m, m ∈ matched ∧
        x.finalScore = combinedScore defaultRankConfig userCtx m +
          jit j * combinedScore defaultRankConfig userCtx m ∧
        combinedScore defaultRankConfig userCtx m =
          (40/100) * m.relevanceScore +
          (35/100) * normalizeBid defaultRankConfig m.ad.bidAmount +
          (15/100) * ctrFactor defaultRankConfig m.ad +
          (5/100) * budgetFactor m.ad +
          (5/100) * targetingFactor m.ad userCtx ∧
        jit j * combinedScore defaultRankConfig userCtx m <
          combinedScore defaultRankConfig userCtx m * (1/100)) ∧
    (rankAds defaultRankConfig matched userCtx jit).Pairwise
      (fun a b => b.finalScore ≤ a.finalScore) := by
  constructor
  · intro x hx
    unfold rankAds at hx
    split at hx
    · simp at hx
    · rw [mem_sortDescBy] at hx
      rcases rankLoop_members defaultRankConfig userCtx jit matched 0 x hx with
        ⟨j, m, hm, rfl⟩
      have hcomb : combinedScore defaultRankConfig userCtx m =
          (40/100) * m.relevanceScore +
          (35/100) * normalizeBid defaultRankConfig m.ad.bidAmount +
          (15/100) * ctrFactor defaultRankConfig m.ad +
          (5/100) * budgetFactor m.ad +
          (5/100) * targetingFactor m.ad userCtx := rfl
      have hposm := hpos m hm
      have hc : 0 < combinedScore defaultRankConfig userCtx m := by
        rw [hcomb]
        have h1 := normalizeBid_nonneg defaultRankConfig m.ad.bidAmount hposm.2.1
        have h2 := ctrFactor_nonneg defaultRankConfig m.ad hposm.2.2
        have h3 := budgetFactor_nonneg m.ad
        have h4 := targetingFactor_nonneg m.ad userCtx
        nlinarith [hposm.1]
      refine ⟨j, m, hm, rfl, hcomb, ?_⟩
      calc jit j * combinedScore defaultRankConfig userCtx m
          < (1/100) * combinedScore defaultRankConfig userCtx m :=
            mul_lt_mul_of_pos_right (hjit j).2 hc
        _ = combinedScore defaultRankConfig userCtx m * (1/100) := mul_comm _ _
  · unfold rankAds
    split
    · simp
    · exact pairwise_sortDescBy _ _

/-- Witness for C7: one candidate with positive relevance, jitter draw 1/200. -/
theorem C7_ranking_weighted_sum_and_jitter_witness :
    (∀ i : Nat, 0 ≤ (fun _ => (1/200 : ℚ)) i ∧ (fun _ => (1/200 : ℚ)) i < 1/100) ∧
    (∀ m ∈ [c7Match], 0 < m.relevanceScore ∧ 0 ≤ m.ad.bidAmount ∧ 0 ≤ m.ad.ctr) ∧
    ((∀ x ∈ rankAds defaultRankConfig [c7Match] none (fun _ => (1/200 : ℚ)),
      ∃ (j : Nat) (m : RankMatch), m ∈ [c7Match] ∧
        x.finalScore = combinedScore defaultRankConfig none m +
          (fun _ => (1/200 : ℚ)) j * combinedScore defaultRankConfig none m ∧
        combinedScore defaultRankConfig none m =
          (40/100) * m.relevanceScore +
          (35/100) * normalizeBid defaultRankConfig m.ad.bidAmount +
          (15/100) * ctrFactor defaultRankConfig m.ad +
          (5/100) * budgetFactor m.ad +
          (5/100) * targetingFactor m.ad none ∧
        (fun _ => (1/200 : ℚ)) j * combinedScore defaultRankConfig none m <
          combinedScore defaultRankConfig none m * (1/100)) ∧
     (rankAds defaultRankConfig [c7Match] none (fun _ => (1/200 : ℚ))).Pairwise
       (fun a b => b.finalScore ≤ a.finalScore)) :=
  ⟨fun i => ⟨by norm_num, by norm_num⟩, by decide,
   C7_ranking_weighted_sum_and_jitter [c7Match] none (fun _ => (1/200 : ℚ))
     (fun i => ⟨by norm_num, by norm_num⟩) (by decide)⟩

end Ranking

namespace QueryAnalyzer

/-- C8 counterexample: a malformed (non-JSON) payload containing a
`Keywords:` section does NOT degrade to the empty keyword list the claim
describes — the fallback scrapes `["tv"]` out of the text.  (There is also
no `degraded` tag anywhere in the result: `ExtractedData` carries exactly
the seven keys the source dict has.) -/
theorem C8_counterexample :
    (extractDataWithOpenai (.rawPayload "Keywords: tv")).keywords = ["tv"] ∧
    ["tv"] ≠ ([] : List String) := by
  decide

/-- C8 amended: the component fails soft — it is a total function of the
call outcome.  An exception or timeout yields exactly the default
extraction (neutral sentiment, unknown intent, empty lists); a malformed
payload is handed to the deterministic local fallback, whose sentiment is
always one of positive/negative/neutral and whose intent is always one of
the three labels or "unknown" (but whose keyword/topic lists may be
nonempty, scraped from the text); no `degraded` tag exists. -/
theorem C8_amended_fails_soft :
    extractDataWithOpenai .failure = defaultExtraction ∧
    (∀ t, extractDataWithOpenai (.rawPayload t) = fallbackExtraction t) ∧
    (∀ t, (fallbackExtraction t).sentiment = "positive" ∨
      (fallbackExtraction t).sentiment = "negative" ∨
      (fallbackExtraction t).sentiment = "neutral") ∧
    (∀ t, (fallbackExtraction t).intent = "informational" ∨
      (fallbackExtraction t).intent = "transactional" ∨
      (fallbackExtraction t).intent = "navigational" ∨
      (fallbackExtraction t).intent = "unknown") ∧
    (∀ t, (fallbackExtraction t).categories = [] ∧ (fallbackExtraction t).entities = []) := by
  refine ⟨rfl, fun t => rfl, ?_, ?_, fun t => ⟨rfl, rfl⟩⟩
  · intro t
    simp only [fallbackExtraction]
    split
    · split
      · exact Or.inl rfl
      · split
        · exact Or.inr (Or.inl rfl)
        · exact Or.inr (Or.inr rfl)
    · exact Or.inr (Or.inr rfl)
  · intro t
    simp only [fallbackExtraction]
    split
    · split
      · exact Or.inl rfl
      · split
        · exact Or.inr (Or.inl rfl)
        · split
          · exact Or.inr (Or.inr (Or.inl rfl))
          · exact Or.inr (Or.inr (Or.inr rfl))
    · exact Or.inr (Or.inr (Or.inr rfl))

end QueryAnalyzer
